import Mathlib

/-!
Verification development for the `mc` (Minio Client) core: the storage-location
URL model, the S3 backend's stat/list logic, the copy-syntax validation and the
configuration-migration pipeline.

Go strings are modelled as `List Char` (the sources only use byte-wise string
operations on ASCII data, where the two views agree).  Go maps are modelled as
association lists iterated in list order (Go's map iteration order is
unspecified; the list order fixes one such order).  The platform is fixed to a
non-Windows OS: `runtime.GOOS ≠ "windows"` and `filepath.Separator = '/'`.
-/

/-- Str is the model of a Go string: a list of characters. -/
abbrev Str := List Char

/-- Convert a Lean string literal to the Go-string model. -/
def str (s : String) : Str := s.data

/-- Model of Go `strings.HasPrefix s pre`. -/
def strStartsWith : Str → Str → Bool
  | _, [] => true
  | [], _ :: _ => false
  | c :: s, p :: ps => c = p && strStartsWith s ps

/-- Model of Go `strings.HasSuffix s suf`. -/
def strEndsWith (s suf : Str) : Bool :=
  strStartsWith s.reverse suf.reverse

/-- Model of Go `strings.Index s pat`: index of the first occurrence of `pat`
in `s`, or `none` standing for Go's `-1`. -/
def strIndex : Str → Str → Option Nat
  | [], pat => if strStartsWith [] pat then some 0 else none
  | c :: t, pat =>
    if strStartsWith (c :: t) pat then some 0
    else (strIndex t pat).map (· + 1)

/-- Model of Go `strings.Contains s pat`. -/
def strContains (s pat : Str) : Bool :=
  (strIndex s pat).isSome

/-- Model of Go `strings.TrimPrefix s pre`: drop one leading copy of `pre`. -/
def strTrimStart (s pre : Str) : Str :=
  if strStartsWith s pre then s.drop pre.length else s

/-- Model of Go `strings.TrimSuffix s suf`: drop one trailing copy of `suf`. -/
def strTrimEnd (s suf : Str) : Str :=
  if strEndsWith s suf then s.take (s.length - suf.length) else s

/-- Fuelled worker for `stringsSplit`; the fuel is an upper bound on the
number of split steps, irrelevant whenever the separator is nonempty. -/
def splitAllAux : Nat → Str → Str → List Str
  | 0, s, _ => [s]
  | fuel + 1, s, sep =>
    match strIndex s sep with
    | none => [s]
    | some i => s.take i :: splitAllAux fuel (s.drop (i + sep.length)) sep

/-- Model of Go `strings.Split s sep` for a nonempty separator. -/
def stringsSplit (s sep : Str) : List Str :=
  splitAllAux (s.length + 1) s sep

/-- Fuelled worker for `stringsSplitN`. -/
def splitNAux : Nat → Str → Str → Nat → List Str
  | _, _, _, 0 => []
  | _, s, _, 1 => [s]
  | 0, s, _, _ => [s]
  | fuel + 1, s, sep, n + 2 =>
    match strIndex s sep with
    | none => [s]
    | some i => s.take i :: splitNAux fuel (s.drop (i + sep.length)) sep (n + 1)

/-- Model of Go `strings.SplitN s sep n` for a nonempty separator: at most `n`
pieces, the last piece holding the unsplit remainder. -/
def stringsSplitN (s sep : Str) (n : Nat) : List Str :=
  splitNAux (s.length + 1) s sep n

/-- Character class `[a-zA-Z]` of the scheme-validating regular expression. -/
def isAlphaChar (c : Char) : Bool :=
  ('a' ≤ c && c ≤ 'z') || ('A' ≤ c && c ≤ 'Z')

/-- Model of `regexp.MustCompile("^[a-zA-Z]+$").MatchString`. -/
def validScheme (s : Str) : Bool :=
  !s.isEmpty && s.all isAlphaChar

/-- Fuelled worker for `globMatch`; each step shrinks the pattern or the
candidate, so a fuel of their combined length suffices. -/
def globMatchAux : Nat → Str → Str → Bool
  | 0, _, _ => false
  | fuel + 1, pattern, s =>
    match pattern, s with
    | [], [] => true
    | [], _ :: _ => false
    | '*' :: ps, s =>
      globMatchAux fuel ps s ||
        (match s with
         | [] => false
         | c :: cs => decide (c ≠ '/') && globMatchAux fuel ('*' :: ps) cs)
    | _ :: _, [] => false
    | p :: ps, c :: cs => p = c && globMatchAux fuel ps cs

/-- Model of Go `path/filepath.Match` restricted to the `*`-and-literal glob
patterns the sources use (`*` matches any run of non-separator characters). -/
def globMatch (pattern s : Str) : Bool :=
  globMatchAux (pattern.length + s.length + 1) pattern s

/-- Component processing of Go `path/filepath.Clean`: drop empty and `.`
components, resolve `..` against the stack, keeping it when unmatched and
unrooted. -/
def cleanCompsAux (rooted : Bool) (acc : List Str) : List Str → List Str
  | [] => acc.reverse
  | comp :: rest =>
    if comp.isEmpty || comp = str "." then cleanCompsAux rooted acc rest
    else if comp = str ".." then
      match acc with
      | [] =>
        if rooted then cleanCompsAux rooted [] rest
        else cleanCompsAux rooted [str ".."] rest
      | top :: accTail =>
        if top = str ".." then cleanCompsAux rooted (comp :: acc) rest
        else cleanCompsAux rooted accTail rest
    else cleanCompsAux rooted (comp :: acc) rest

/-- Model of Go `path/filepath.Clean` on a non-Windows platform. -/
def filepathClean (p : Str) : Str :=
  if p.isEmpty then str "."
  else
    let rooted := strStartsWith p (str "/")
    let comps := stringsSplit p (str "/")
    let out :=
      (if rooted then str "/" else []) ++
        List.intercalate (str "/") (cleanCompsAux rooted [] comps)
    if out.isEmpty then str "." else out

/-- Model of Go `path/filepath.Join` on a non-Windows platform: drop leading
empty elements, join the rest with `/`, and clean the result. -/
def filepathJoin (elems : List Str) : Str :=
  match elems.dropWhile (·.isEmpty) with
  | [] => []
  | rest => filepathClean (List.intercalate (str "/") rest)

example : strStartsWith (str "https") (str "http") = true := by decide
example : stringsSplit (str "http://h/x") (str "://") = [str "http", str "h/x"] := by decide
example : stringsSplit (str "http://h/a://b") (str "://") =
    [str "http", str "h/a", str "b"] := by decide
example : strIndex (str "mybucket.s3.amazonaws.com") (str "s3") = some 9 := by decide
example : filepathJoin [str "/", str "b", str "k"] = str "/b/k" := by decide
example : filepathClean (str "a//b/") = str "a/b" := by decide
example : globMatch (str "*.s3*.amazonaws.com") (str "mybucket.s3.amazonaws.com") = true := by
  decide
example : globMatch (str "*.s3*.amazonaws.com") (str "s3.amazonaws.com") = false := by decide

/-! ## The Location URL model (`pkg/client`, url.go) -/

/-- URLType - enum of the two url kinds, `Object` (`iota = 0`, so also the
zero value) and `Filesystem`. -/
inductive URLType where
  | Object
  | Filesystem
deriving DecidableEq, Repr

/-- URL - the client url structure. -/
structure URL where
  Typ : URLType
  Scheme : Str
  Host : Str
  Path : Str
  SchemeSeparator : Str
  Separator : Char
deriving DecidableEq, Repr

/-- Zero value of the Go `URL` struct (`Type` is `Object` because it is the
first enum constant). -/
def URL.zero : URL :=
  { Typ := URLType.Object, Scheme := [], Host := [], Path := [],
    SchemeSeparator := [], Separator := Char.ofNat 0 }

/-- Model of `getScheme`: if `rawurl` is of the form `scheme:path` with an
alphabetic scheme, return the scheme and `"//" ++ remainder`; else return the
empty scheme and `rawurl` itself. -/
def getScheme (rawurl : Str) : Str × Str :=
  match stringsSplit rawurl (str "://") with
  | [scheme, rest] =>
    let uri := str "//" ++ rest
    if !uri.isEmpty then
      if validScheme scheme then (scheme, uri) else ([], rawurl)
    else ([], rawurl)
  | _ => ([], rawurl)

/-- Model of `splitSpecial`: split at the first occurrence of `delimiter`,
keeping or cutting the delimiter from the second piece. -/
def splitSpecial (s delimiter : Str) (cutdelimiter : Bool) : Str × Str :=
  match strIndex s delimiter with
  | none => (s, [])
  | some i =>
    if cutdelimiter then (s.take i, s.drop (i + delimiter.length))
    else (s.take i, s.drop i)

/-- Model of `getHost`: extract the host from an authority string; a `@`
(user-info, unsupported) collapses the host to empty.  (Go tests
`strings.LastIndex(authority, "@") >= 0`, i.e. containment.) -/
def getHost (authority : Str) : Str :=
  if strContains authority (str "@") then [] else authority

/-- Builds the Filesystem fallback URL of `NewURL` (zero `Scheme`, `Host` and
`SchemeSeparator`; `filepath.Separator` is `/` on the modelled platform). -/
def fsURL (path : Str) : URL :=
  { Typ := URLType.Filesystem, Scheme := [], Host := [], Path := path,
    SchemeSeparator := [], Separator := '/' }

/-- Model of `NewURL`: the abstracted URL for filesystems and object
storage. -/
def NewURL (urlStr : Str) : URL :=
  let p0 := getScheme urlStr
  let scheme := p0.1
  let rest0 := p0.2
  let rest1 := (splitSpecial rest0 (str "?") true).1
  if strStartsWith rest1 (str "//") then
    let p1 := splitSpecial (rest1.drop 2) (str "/") false
    let authority := p1.1
    let rest2 := if p1.2.isEmpty then str "/" else p1.2
    let host := getHost authority
    if !host.isEmpty && (scheme = str "http" || scheme = str "https") then
      { Typ := URLType.Object, Scheme := scheme, Host := host, Path := rest2,
        SchemeSeparator := str "://", Separator := '/' }
    else fsURL rest2
  else fsURL rest1

/-- Model of `JoinURLs` on a non-Windows platform (the `GOOS == "windows"`
backslash translations are identity there): join two urls into one. -/
def JoinURLs (url1 url2 : URL) : URL :=
  let url1Path := url1.Path
  let url2Path := url2.Path
  let u1 :=
    if url1.Typ = URLType.Object then
      { url1 with Path :=
          if strEndsWith url1Path (str "/") then
            url1Path ++ strTrimStart url2Path (str "/")
          else url1Path ++ str "/" ++ strTrimStart url2Path (str "/") }
    else url1
  if u1.Typ = URLType.Filesystem then
    { u1 with Path :=
        if strEndsWith url1Path (str "/") then
          url1Path ++ strTrimStart url2Path (str "/")
        else url1Path ++ str "/" ++ strTrimStart url2Path (str "/") }
  else u1

/-- Model of `URL.String` on a non-Windows platform: the canonical form.
Filesystem urls render as the raw path; Object urls render as
`scheme://host` followed by the path, inserting a `/` when the path does not
already start with one and a host is present. -/
def URL.String (u : URL) : Str :=
  if u.Typ = URLType.Filesystem then u.Path
  else
    u.Scheme ++ str ":" ++ str "//" ++ u.Host ++
      (if !u.Path.isEmpty && u.Path.headD ' ' ≠ '/' && !u.Host.isEmpty
       then str "/" else []) ++ u.Path

example : NewURL (str "https://s3.amazonaws.com/b/o") =
    { Typ := URLType.Object, Scheme := str "https", Host := str "s3.amazonaws.com",
      Path := str "/b/o", SchemeSeparator := str "://", Separator := '/' } := by decide
example : NewURL (str "http://user@host/p") = fsURL (str "/p") := by decide
example : NewURL (str "ftp://host/p") = fsURL (str "/p") := by decide
example : NewURL (str "/tmp/x") = fsURL (str "/tmp/x") := by decide
example : NewURL (str "http://h") =
    { Typ := URLType.Object, Scheme := str "http", Host := str "h",
      Path := str "/", SchemeSeparator := str "://", Separator := '/' } := by decide
example : URL.String (NewURL (str "https://h/x")) = str "https://h/x" := by decide

/-! ## The S3 backend model (`pkg/client/s3`, client.go) -/

/-- File-type tag of an `os.FileMode` value as used by the client: `dir` is
`os.ModeDir`, `temporary` is `os.ModeTemporary`, `file p` is `os.FileMode(p)`
(zero value is `file 0`). -/
inductive FileMode where
  | dir
  | temporary
  | file (perm : Nat)
deriving DecidableEq, Repr

/-- Model of `os.FileMode.IsDir`. -/
def FileMode.isDir : FileMode → Bool
  | FileMode.dir => true
  | _ => false

/-- Model of `os.FileMode.IsRegular` (no type bits set). -/
def FileMode.isRegular : FileMode → Bool
  | FileMode.file _ => true
  | _ => false

/-- An entry (`client.Content`): zero fields unless set. -/
structure Content where
  URL : URL
  Time : Nat
  Size : Int
  Typ : FileMode
  Err : Option Str
deriving DecidableEq, Repr

/-- Zero value of `client.Content`. -/
def Content.zero : Content :=
  { URL := URL.zero, Time := 0, Size := 0, Typ := FileMode.file 0, Err := none }

/-- An error-only entry, `&client.Content{Err: probe.NewError(e)}`. -/
def errContent (e : Str) : Content :=
  { Content.zero with Err := some e }

/-- An item of the SDK's object-listing channel (`minio.ObjectStat`). -/
structure ObjectStat where
  Err : Option Str
  Key : Str
  Size : Int
  LastModified : Nat
  Initiated : Nat
deriving DecidableEq, Repr

/-- An item of the SDK's bucket-listing channel (`minio.BucketStat`). -/
structure BucketInfo where
  Err : Option Str
  Name : Str
  CreationDate : Nat
deriving DecidableEq, Repr

/-- Object metadata returned by a successful `StatObject`. -/
structure ObjectMetadata where
  LastModified : Nat
  Size : Int
deriving DecidableEq, Repr

/-- An error from `StatObject`: either one that `minio.ToErrorResponse`
converts to a response carrying a `Code`, or a generic transport error. -/
inductive StatErr where
  | response (code : Str)
  | generic (msg : Str)
deriving DecidableEq, Repr

/-- Errors surfaced by the client's `Stat` (wrapped in `probe.Error` in Go). -/
inductive ClientErr where
  | sdk (msg : Str)
  | sdkStat (e : StatErr)
  | pathNotFound (path : Str)
deriving DecidableEq, Repr

/-- Responses of the external object-storage SDK consumed by the client; `now`
is the wall-clock time observed by `time.Now()` during the listing. -/
structure S3Api where
  now : Nat
  listBuckets : List BucketInfo
  listObjects : Str → Str → Bool → List ObjectStat
  listIncompleteUploads : Str → Str → Bool → List ObjectStat
  bucketExists : Str → Option Str
  statObject : Str → Str → Except StatErr ObjectMetadata

/-- The `s3Client` state relevant to the pure logic: the parsed host url and
the virtual-host-style flag computed at construction. -/
structure ClientState where
  hostURL : URL
  virtualStyle : Bool
deriving DecidableEq, Repr

/-- Model of `isVirtualHostStyle`: hosts matching the Amazon-S3 or
Google-Cloud-Storage virtual-host glob patterns. -/
def isVirtualHostStyle (hostURL : Str) : Bool :=
  globMatch (str "*.s3*.amazonaws.com") hostURL ||
    globMatch (str "*.storage.googleapis.com") hostURL

/-- Model of `url2BucketAndObject`: bucket and object names from the url path,
converting virtual-host-styled requests first ( `strings.Index` returning `-1`
is modelled as `none`). -/
def url2BucketAndObject (hostURL : URL) (virtualStyle : Bool) : Str × Str :=
  let path :=
    if virtualStyle then
      let hostIndex :=
        match strIndex hostURL.Host (str "s3") with
        | some i => some i
        | none => strIndex hostURL.Host (str "storage.googleapis")
      match hostIndex with
      | some i =>
        if 0 < i then
          let bucket := hostURL.Host.take (i - 1)
          [hostURL.Separator] ++ bucket ++ hostURL.Path
        else hostURL.Path
      | none => hostURL.Path
    else hostURL.Path
  match stringsSplitN path [hostURL.Separator] 3 with
  | [] => ([], [])
  | [_] => ([], [])
  | [_, b] => (b, [])
  | _ :: b :: o :: _ => (b, o)

/-- First error in the `ListBuckets` channel, as scanned by the root case of
`Stat`. -/
def firstBucketErr : List BucketInfo → Option Str
  | [] => none
  | bkt :: rest =>
    match bkt.Err with
    | some e => some e
    | none => firstBucketErr rest

/-- Model of `s3Client.Stat`: a `HEAD` on a bucket or object.  For an object
miss with code `NoSuchKey`, the stat is retried as a non-recursive listing
under the object name plus separator; a first listed item reclassifies the
location as a directory, an empty listing yields `PathNotFound`, and an
error-carrying first item propagates that error. -/
def s3Stat (cs : ClientState) (api : S3Api) : Except ClientErr Content :=
  let bo := url2BucketAndObject cs.hostURL cs.virtualStyle
  let bucket := bo.1
  let object := bo.2
  if bucket.isEmpty && object.isEmpty then
    match firstBucketErr api.listBuckets with
    | some e => Except.error (ClientErr.sdk e)
    | none => Except.ok { Content.zero with URL := cs.hostURL, Typ := FileMode.dir }
  else if !object.isEmpty then
    match api.statObject bucket object with
    | Except.ok metadata =>
      Except.ok { URL := cs.hostURL, Time := metadata.LastModified,
                  Size := metadata.Size, Typ := FileMode.file 0o664, Err := none }
    | Except.error e =>
      match e with
      | StatErr.response code =>
        if code = str "NoSuchKey" then
          let sep : Str := [cs.hostURL.Separator]
          let prefixName := strTrimEnd object sep ++ sep
          match api.listObjects bucket prefixName false with
          | [] => Except.error (ClientErr.pathNotFound cs.hostURL.Path)
          | objectStat :: _ =>
            match objectStat.Err with
            | some er => Except.error (ClientErr.sdk er)
            | none =>
              Except.ok { Content.zero with URL := cs.hostURL, Typ := FileMode.dir }
        else Except.error (ClientErr.sdkStat e)
      | StatErr.generic _ => Except.error (ClientErr.sdkStat e)
  else
    match api.bucketExists bucket with
    | some e => Except.error (ClientErr.sdk e)
    | none => Except.ok { Content.zero with URL := cs.hostURL, Typ := FileMode.dir }

/-! ## The listing engine (`pkg/client/s3`, the four in-routine producers) -/

/-- Inner object loop of the producers that `return` (abort the stream) after
emitting an error entry; `mk` builds the entry of a successful item.  The
boolean records whether the loop aborted. -/
def objectsAbortLoop (mk : ObjectStat → Content) : List ObjectStat → List Content × Bool
  | [] => ([], false)
  | obj :: rest =>
    match obj.Err with
    | some e => ([errContent e], true)
    | none =>
      let lp := objectsAbortLoop mk rest
      (mk obj :: lp.1, lp.2)

/-- Inner object loop of `listRecursiveInRoutine`, which `continue`s after
emitting an error entry. -/
def objectsContinueLoop (mk : ObjectStat → Content) : List ObjectStat → List Content
  | [] => []
  | obj :: rest =>
    match obj.Err with
    | some e => errContent e :: objectsContinueLoop mk rest
    | none => mk obj :: objectsContinueLoop mk rest

/-- Entry built for an incomplete upload in the non-recursive and the
default-case recursive incomplete listings: the bucket (unless virtual-host
style) and key are joined under the separator, and a key ending in the
separator becomes a synthesized directory stamped with the current time. -/
def incompleteItemContent (cs : ClientState) (now : Nat) (bName : Str)
    (object : ObjectStat) : Content :=
  let sep : Str := [cs.hostURL.Separator]
  let path :=
    if cs.virtualStyle then filepathJoin [sep, object.Key]
    else filepathJoin [sep, bName, object.Key]
  let url := { cs.hostURL with Path := path }
  if strEndsWith object.Key sep then
    { URL := url, Time := now, Size := 0, Typ := FileMode.dir, Err := none }
  else
    { URL := url, Time := object.Initiated, Size := object.Size,
      Typ := FileMode.temporary, Err := none }

/-- Entry built in the all-buckets case of `listIncompleteRecursiveInRoutine`:
the key is joined onto the host url's own path and the entry is always an
incomplete upload. -/
def incompleteRecOuterContent (cs : ClientState) (bName : Str)
    (object : ObjectStat) : Content :=
  { URL := { cs.hostURL with Path := filepathJoin [cs.hostURL.Path, bName, object.Key] },
    Time := object.Initiated, Size := object.Size,
    Typ := FileMode.temporary, Err := none }

/-- Entry built in the default case of `listIncompleteRecursiveInRoutine`. -/
def incompleteRecDefaultContent (cs : ClientState) (bName : Str)
    (object : ObjectStat) : Content :=
  let sep : Str := [cs.hostURL.Separator]
  let path :=
    if cs.virtualStyle then filepathJoin [sep, object.Key]
    else filepathJoin [sep, bName, object.Key]
  { URL := { cs.hostURL with Path := path },
    Time := object.Initiated, Size := object.Size,
    Typ := FileMode.temporary, Err := none }

/-- Outer bucket loop shared by both incomplete-upload producers: a bucket
error aborts the stream, and an abort of the inner loop aborts the outer
loop. -/
def incompleteBucketsLoop (api : S3Api) (o : Str) (recursive : Bool)
    (mk : Str → ObjectStat → Content) : List BucketInfo → List Content
  | [] => []
  | bkt :: rest =>
    match bkt.Err with
    | some e => [errContent e]
    | none =>
      let lp := objectsAbortLoop (mk bkt.Name) (api.listIncompleteUploads bkt.Name o recursive)
      if lp.2 then lp.1
      else lp.1 ++ incompleteBucketsLoop api o recursive mk rest

/-- Model of `listIncompleteInRoutine`: the stream of entries pushed to the
content channel before it is closed. -/
def listIncompleteInRoutine (cs : ClientState) (api : S3Api) : List Content :=
  let bo := url2BucketAndObject cs.hostURL cs.virtualStyle
  let b := bo.1
  let o := bo.2
  if b.isEmpty && o.isEmpty then
    incompleteBucketsLoop api o false (fun bName => incompleteItemContent cs api.now bName)
      api.listBuckets
  else
    (objectsAbortLoop (incompleteItemContent cs api.now b)
      (api.listIncompleteUploads b o false)).1

/-- Model of `listIncompleteRecursiveInRoutine`. -/
def listIncompleteRecursiveInRoutine (cs : ClientState) (api : S3Api) : List Content :=
  let bo := url2BucketAndObject cs.hostURL cs.virtualStyle
  let b := bo.1
  let o := bo.2
  if b.isEmpty && o.isEmpty then
    incompleteBucketsLoop api o true (fun bName => incompleteRecOuterContent cs bName)
      api.listBuckets
  else
    (objectsAbortLoop (incompleteRecDefaultContent cs b)
      (api.listIncompleteUploads b o true)).1

/-- Entry built for an object in the default case of `listInRoutine`. -/
def listItemContent (cs : ClientState) (now : Nat) (bName : Str)
    (object : ObjectStat) : Content :=
  let sep : Str := [cs.hostURL.Separator]
  let path :=
    if cs.virtualStyle then filepathJoin [sep, object.Key]
    else filepathJoin [sep, bName, object.Key]
  let url := { cs.hostURL with Path := path }
  if strEndsWith object.Key sep then
    { URL := url, Time := now, Size := 0, Typ := FileMode.dir, Err := none }
  else
    { URL := url, Time := object.LastModified, Size := object.Size,
      Typ := FileMode.file 0o664, Err := none }

/-- Bucket loop of the all-buckets case of `listInRoutine`: each bucket is one
directory entry, and a bucket error aborts the stream. -/
def listBucketsAsDirs (cs : ClientState) : List BucketInfo → List Content
  | [] => []
  | bkt :: rest =>
    match bkt.Err with
    | some e => [errContent e]
    | none =>
      { URL := { cs.hostURL with Path := filepathJoin [cs.hostURL.Path, bkt.Name] },
        Time := bkt.CreationDate, Size := 0, Typ := FileMode.dir, Err := none }
        :: listBucketsAsDirs cs rest

/-- Model of `listInRoutine` (non-recursive, completed objects): a failing
bucket-existence check emits the error entry and still emits the directory
entry; the object-listing fallback aborts on an error item. -/
def listInRoutine (cs : ClientState) (api : S3Api) : List Content :=
  let bo := url2BucketAndObject cs.hostURL cs.virtualStyle
  let b := bo.1
  let o := bo.2
  if b.isEmpty && o.isEmpty then listBucketsAsDirs cs api.listBuckets
  else if !b.isEmpty && !strEndsWith cs.hostURL.Path [cs.hostURL.Separator] && o.isEmpty then
    (match api.bucketExists b with
     | some e => [errContent e]
     | none => []) ++
      [{ Content.zero with URL := cs.hostURL, Typ := FileMode.dir }]
  else
    match api.statObject b o with
    | Except.ok metadata =>
      [{ URL := cs.hostURL, Time := metadata.LastModified, Size := metadata.Size,
         Typ := FileMode.file 0o664, Err := none }]
    | Except.error _ =>
      (objectsAbortLoop (listItemContent cs api.now b) (api.listObjects b o false)).1

/-- Entry built in the all-buckets case of `listRecursiveInRoutine`. -/
def recOuterContent (cs : ClientState) (bName : Str) (object : ObjectStat) : Content :=
  { URL := { cs.hostURL with Path := filepathJoin [cs.hostURL.Path, bName, object.Key] },
    Time := object.LastModified, Size := object.Size,
    Typ := FileMode.file 0o664, Err := none }

/-- Entry built in the default case of `listRecursiveInRoutine`. -/
def recDefaultContent (cs : ClientState) (bName : Str) (object : ObjectStat) : Content :=
  let sep : Str := [cs.hostURL.Separator]
  let path :=
    if cs.virtualStyle then filepathJoin [sep, object.Key]
    else filepathJoin [sep, bName, object.Key]
  { URL := { cs.hostURL with Path := path },
    Time := object.LastModified, Size := object.Size,
    Typ := FileMode.file 0o664, Err := none }

/-- Bucket loop of the all-buckets case of `listRecursiveInRoutine`: a bucket
error aborts, but an error item inside a bucket's object listing is emitted
and the loop `continue`s. -/
def recBucketsLoop (cs : ClientState) (api : S3Api) (o : Str) :
    List BucketInfo → List Content
  | [] => []
  | bkt :: rest =>
    match bkt.Err with
    | some e => [errContent e]
    | none =>
      ({ URL := { cs.hostURL with Path := filepathJoin [cs.hostURL.Path, bkt.Name] },
         Time := bkt.CreationDate, Size := 0, Typ := FileMode.dir, Err := none }
        :: objectsContinueLoop (recOuterContent cs bkt.Name)
             (api.listObjects bkt.Name o true)) ++
        recBucketsLoop cs api o rest

/-- Model of `listRecursiveInRoutine`: error items of the object listings are
emitted and the producer `continue`s with the following items. -/
def listRecursiveInRoutine (cs : ClientState) (api : S3Api) : List Content :=
  let bo := url2BucketAndObject cs.hostURL cs.virtualStyle
  let b := bo.1
  let o := bo.2
  if b.isEmpty && o.isEmpty then recBucketsLoop cs api o api.listBuckets
  else objectsContinueLoop (recDefaultContent cs b) (api.listObjects b o true)

/-! ## The configuration-migration pipeline (config-migrate.go) -/

/-- Per-host credentials (`hostConfig` of config version 5/6). -/
structure hostConfig where
  AccessKeyID : Str
  SecretAccessKey : Str
  API : Str
deriving DecidableEq, Repr

/-- Version-5 config document; the Go maps are modelled as association lists
iterated in list order. -/
structure configV5 where
  Version : Str
  Aliases : List (Str × Str)
  Hosts : List (Str × hostConfig)
deriving DecidableEq, Repr

/-- Version-6 config document. -/
structure configV6 where
  Version : Str
  Aliases : List (Str × Str)
  Hosts : List (Str × hostConfig)
deriving DecidableEq, Repr

/-- The process-wide default credentials (`globalAccessKeyID`,
`globalSecretAccessKey`). -/
structure Globals where
  accessKeyID : Str
  secretAccessKey : Str
deriving DecidableEq, Repr

/-- Association-list model of a Go map read `m[k]`. -/
def alistLookup (k : Str) : List (Str × α) → Option α
  | [] => none
  | (k', v) :: rest => if k' = k then some v else alistLookup k rest

/-- Association-list model of a Go map write `m[k] = v`. -/
def alistInsert (k : Str) (v : α) : List (Str × α) → List (Str × α)
  | [] => [(k, v)]
  | (k', v') :: rest =>
    if k' = k then (k, v) :: rest else (k', v') :: alistInsert k v rest

/-- Association-list model of Go `delete(m, k)`. -/
def alistDelete (k : Str) (l : List (Str × α)) : List (Str × α) :=
  l.filter (fun p => decide (p.1 ≠ k))

/-- First host entry whose key contains `"s3"`, in iteration order: the entry
found by the deletion loop of `migrateConfigV5ToV6` before its `break`. -/
def alistFindS3 : List (Str × hostConfig) → Option (Str × hostConfig)
  | [] => none
  | (k, v) :: rest =>
    if strContains k (str "s3") then some (k, v) else alistFindS3 rest

/-- Model of the `migrateConfigV5ToV6` document transformation (the load /
version-check / save driver is folded into the version guard): adds the `gcs`
alias, copies the hosts, examines the first host whose key contains `"s3"` --
deleting it when either credential equals the process default or either
credential is empty, and remembering its config -- then adds the two glob
host patterns. -/
def migrateConfigV5ToV6 (g : Globals) (conf : configV5) : configV6 :=
  if conf.Version = str "5" then
    let aliases := alistInsert (str "gcs") (str "https://storage.googleapis.com") conf.Aliases
    let hosts0 := conf.Hosts.map (fun p =>
      (p.1, ({ AccessKeyID := p.2.AccessKeyID, SecretAccessKey := p.2.SecretAccessKey,
               API := p.2.API } : hostConfig)))
    let found := alistFindS3 hosts0
    let hosts1 :=
      match found with
      | none => hosts0
      | some (host, hostConf) =>
        let hs :=
          if hostConf.AccessKeyID = g.accessKeyID ||
              hostConf.SecretAccessKey = g.secretAccessKey then
            alistDelete host hosts0
          else hosts0
        if hostConf.AccessKeyID.isEmpty || hostConf.SecretAccessKey.isEmpty then
          alistDelete host hs
        else hs
    let s3Conf :=
      match found with
      | none => ({ AccessKeyID := [], SecretAccessKey := [], API := [] } : hostConfig)
      | some (_, hostConf) =>
        { AccessKeyID := hostConf.AccessKeyID,
          SecretAccessKey := hostConf.SecretAccessKey, API := hostConf.API }
    let hosts2 := alistInsert (str "*s3*amazonaws.com") s3Conf hosts1
    let hosts3 := alistInsert (str "*storage.googleapis.com")
      { AccessKeyID := g.accessKeyID, SecretAccessKey := g.secretAccessKey,
        API := str "S3v2" } hosts2
    { Version := str "6", Aliases := aliases, Hosts := hosts3 }
  else { Version := conf.Version, Aliases := conf.Aliases, Hosts := conf.Hosts }

/-- The key written by `fixConfigV6ForHosts` for a recognized bare host: the
canonical string of a zero url (hence `Type = Object`) with only `Scheme`,
`Host` and `SchemeSeparator` set. -/
def schemeKey (scheme host : Str) : Str :=
  let u : URL :=
    { URL.zero with
        Scheme := scheme, Host := host, SchemeSeparator := str "://" }
  URL.String u

/-- Host loop of `fixConfigV6ForHosts`: keys already scheme-prefixed are
carried through; the six recognized bare keys are re-inserted under a
scheme-qualified key (the subsequent `delete` of the bare key from the new
map mirrors the Go code and is a no-op there); any other key is dropped. -/
def fixHostsLoop (acc : List (Str × hostConfig)) :
    List (Str × hostConfig) → List (Str × hostConfig)
  | [] => acc
  | (host, hostCfg) :: rest =>
    if strStartsWith host (str "https") || strStartsWith host (str "http") then
      fixHostsLoop (alistInsert host hostCfg acc) rest
    else
      let acc1 :=
        if host = str "s3.amazonaws.com" || host = str "storage.googleapis.com" then
          alistDelete host (alistInsert (schemeKey (str "https") host) hostCfg acc)
        else acc
      let acc2 :=
        if host = str "localhost:9000" || host = str "127.0.0.1:9000" then
          alistDelete host (alistInsert (schemeKey (str "http") host) hostCfg acc1)
        else acc1
      let acc3 :=
        if host = str "play.minio.io:9000" || host = str "dl.minio.io:9000" then
          alistDelete host (alistInsert (schemeKey (str "https") host) hostCfg acc2)
        else acc2
      fixHostsLoop acc3 rest

/-- Model of the `fixConfigV6ForHosts` document transformation: rebuild the
hosts map through `fixHostsLoop`, keeping the aliases and the version. -/
def fixConfigV6ForHosts (conf : configV6) : configV6 :=
  if conf.Version = str "6" then
    { Version := str "6", Aliases := conf.Aliases, Hosts := fixHostsLoop [] conf.Hosts }
  else conf

/-! ## Copy-syntax validation (cp-url-syntax.go, type C) -/

/-- Outcome of a syntax-check routine: it returns normally, exits through
`fatalIf`, or crashes on a nil-pointer dereference. -/
inductive CheckResult where
  | ok
  | fatal (msg : Str)
  | nilDeref
deriving DecidableEq, Repr

/-- Environment of the copy-syntax checks.  `url2Stat` and
`isURLPrefixExists` live outside the analysed sources.  Modelled from the
spec: `Stat() → Entry` is fallible and produces an Entry only on success
(`url2Stat` accordingly returns no content alongside an error, matching the
Go convention of a nil `*client.Content`), and `isURLPrefixExists` reports
whether a location exists as a listing prefix. -/
structure CpEnv where
  url2Stat : Str → Except Str Content
  isURLPrefixExists : Str → Bool

/-- Model of `checkCopySyntaxTypeC`: on a failed source stat the check aborts
only when the source also fails the prefix-existence probe; otherwise the
code falls through to `srcContent.Type.IsDir()` with `srcContent` absent,
which dereferences a nil pointer. -/
def checkCopySyntaxTypeC (env : CpEnv) (srcURLs : List Str) (tgtURL : Str)
    (isRecursive : Bool) : CheckResult :=
  if srcURLs.length ≠ 1 then CheckResult.fatal (str "Invalid number of source arguments.")
  else
    let srcURL := srcURLs.headD []
    match env.url2Stat srcURL with
    | Except.error e =>
      if !env.isURLPrefixExists srcURL then
        CheckResult.fatal (str "Unable to stat source: " ++ e)
      else CheckResult.nilDeref
    | Except.ok srcContent =>
      if srcContent.Typ.isDir && !isRecursive then
        CheckResult.fatal (str "To copy a folder requires --recursive option.")
      else
        match env.url2Stat tgtURL with
        | Except.ok tgtContent =>
          if !tgtContent.Typ.isDir then CheckResult.fatal (str "Target is not a folder.")
          else CheckResult.ok
        | Except.error _ => CheckResult.ok

/-! ## Spec-side definitions (for the refinement-style claims) -/

/-- Explicit characterization of the inputs the code recognizes as object
storage, proved equivalent to `NewURL` in the amended C1 theorem: exactly one
`://` occurrence (the two-piece `strings.Split`), an alphabetic scheme that is
`http` or `https`, and, after stripping a query suffix, an authority (up to
the first `/`) that is nonempty and free of `@`. -/
def objectStoreCond (s : Str) : Bool :=
  match stringsSplit s (str "://") with
  | [scheme, tail] =>
    (validScheme scheme && (scheme = str "http" || scheme = str "https")) &&
      (!strContains ((tail.takeWhile (fun x => decide (x ≠ '?'))).takeWhile
          (fun x => decide (x ≠ '/'))) (str "@") &&
        !((tail.takeWhile (fun x => decide (x ≠ '?'))).takeWhile
          (fun x => decide (x ≠ '/'))).isEmpty)
  | _ => false

/-- Modelled from the spec: "split on the first `://`; the left side is
accepted as a scheme only if it matches `[a-zA-Z]+` ... a `@` inside authority
(user-info) is explicitly unsupported and collapses the host to empty ... A
non-empty host combined with scheme `http`/`https` yields `ObjectStore`".
The split is on the FIRST occurrence of `://` and the spec mentions no query
stripping. -/
def specIsObjectStore (s : Str) : Bool :=
  match strIndex s (str "://") with
  | none => false
  | some i =>
    Bool.and
      (validScheme (s.take i) &&
        (s.take i = str "http" || s.take i = str "https"))
      (!strContains ((s.drop (i + 3)).takeWhile (fun x => decide (x ≠ '/')))
          (str "@") &&
        !((s.drop (i + 3)).takeWhile (fun x => decide (x ≠ '/'))).isEmpty)

/-- Key upgrade performed by `fixConfigV6ForHosts`, written from the spec's
words: scheme-prefixed keys are kept, the six recognized bare keys get their
scheme qualification, and every other key is dropped. -/
def fixHostKey (host : Str) : Option Str :=
  if strStartsWith host (str "https") || strStartsWith host (str "http") then some host
  else if host = str "s3.amazonaws.com" || host = str "storage.googleapis.com" then
    some (str "https://" ++ host)
  else if host = str "localhost:9000" || host = str "127.0.0.1:9000" then
    some (str "http://" ++ host)
  else if host = str "play.minio.io:9000" || host = str "dl.minio.io:9000" then
    some (str "https://" ++ host)
  else none

/-- Reference accumulation of `fixConfigV6ForHosts` in terms of
`fixHostKey`. -/
def fixHostsSpecLoop (acc : List (Str × hostConfig)) :
    List (Str × hostConfig) → List (Str × hostConfig)
  | [] => acc
  | (host, hostCfg) :: rest =>
    match fixHostKey host with
    | some k => fixHostsSpecLoop (alistInsert k hostCfg acc) rest
    | none => fixHostsSpecLoop acc rest

/-- A stream in which an error entry is never followed by another entry. -/
def errorsTerminal : List Content → Bool
  | [] => true
  | [_] => true
  | c :: rest => c.Err.isNone && errorsTerminal rest

/-! ## C4: virtual-host-style bucket extraction -/

/-- C4: for the virtual-host-style location `mybucket.s3.amazonaws.com` with
path `/key` the bucket/object split resolves to `(mybucket, key)`, the same
split as for the path-style location `s3.amazonaws.com/mybucket/key`. -/
theorem virtualHost_bucket_extraction :
    (let u := NewURL (str "https://mybucket.s3.amazonaws.com/key")
     url2BucketAndObject u (isVirtualHostStyle u.Host)) = (str "mybucket", str "key") ∧
    (let v := NewURL (str "https://s3.amazonaws.com/mybucket/key")
     url2BucketAndObject v (isVirtualHostStyle v.Host)) = (str "mybucket", str "key") := by
  decide

/-! ## C10: nil dereference in `checkCopySyntaxTypeC` -/

/-- Environment exhibiting a source whose stat fails while the source exists
as a listing prefix. -/
def cpEnvMissingSource : CpEnv :=
  { url2Stat := fun _ => Except.error (str "no such key"),
    isURLPrefixExists := fun _ => true }

/-- C10: evaluating `checkCopySyntaxTypeC` on a single source whose stat
fails but which exists as a listing prefix reaches the dereference of the
absent stat result: the validation crashes instead of aborting with the stat
error or completing. -/
theorem checkCopySyntaxTypeC_nil_deref :
    checkCopySyntaxTypeC cpEnvMissingSource [str "play/bucket/prefix"]
      (str "play/bucket2") true = CheckResult.nilDeref := by
  decide

/-! ## Counterexamples for the corrected claims -/

/-- C2 counterexample: for `s = "//a//b"` the parse is a Filesystem location
with path `"//b"`; its canonical string reparses to a Filesystem location
with path `"/"`, so `parse (canonicalString (parse s)) ≠ parse s`. -/
theorem roundtrip_canonical_counterexample :
    NewURL (URL.String (NewURL (str "//a//b"))) ≠ NewURL (str "//a//b") ∧
      NewURL (str "//a//b") = fsURL (str "//b") ∧
      NewURL (URL.String (NewURL (str "//a//b"))) = fsURL (str "/") := by
  decide

/-- C3 counterexample: joining a parent with path `a` and a child with path
`//b` produces `a//b` -- a double separator at the parent/child boundary
(position 1), not exactly one. -/
theorem joinURLs_separator_counterexample :
    (JoinURLs (fsURL (str "a")) (fsURL (str "//b"))).Path = str "a//b" ∧
      strIndex (JoinURLs (fsURL (str "a")) (fsURL (str "//b"))).Path (str "//") =
        some 1 := by
  decide

/-- C7 counterexample: the input `a?b` is not recognized as an object-storage
url and parses to a Filesystem location, yet its path is the query-stripped
`a`, not the raw input. -/
theorem parse_fallback_counterexample :
    (NewURL (str "a?b")).Typ = URLType.Filesystem ∧
      (NewURL (str "a?b")).Path ≠ str "a?b" ∧
      (NewURL (str "a?b")).Path = str "a" := by
  decide

/-- Decidable equality for `Except` results, used to evaluate concrete `Stat`
outcomes. -/
instance {ε α : Type} [DecidableEq ε] [DecidableEq α] : DecidableEq (Except ε α) :=
  fun x y =>
    match x, y with
    | Except.ok a, Except.ok b =>
      if h : a = b then isTrue (by rw [h]) else isFalse (by intro he; cases he; exact h rfl)
    | Except.error a, Except.error b =>
      if h : a = b then isTrue (by rw [h]) else isFalse (by intro he; cases he; exact h rfl)
    | Except.ok _, Except.error _ => isFalse (by intro h; cases h)
    | Except.error _, Except.ok _ => isFalse (by intro h; cases h)

/-- Client state of the stat/list counterexamples: an object location
`https://play.minio.io:9000/b/o` (bucket `b`, object `o`, not virtual-host
style). -/
def csPlay : ClientState :=
  { hostURL := NewURL (str "https://play.minio.io:9000/b/o"),
    virtualStyle := isVirtualHostStyle (NewURL (str "https://play.minio.io:9000/b/o")).Host }

/-- SDK responses of the C5 counterexample: the object stat misses with
`NoSuchKey` and the retry listing yields one error-carrying item. -/
def apiStatErrList : S3Api :=
  { now := 0, listBuckets := [],
    listObjects := fun _ _ _ =>
      [{ Err := some (str "boom"), Key := [], Size := 0, LastModified := 0, Initiated := 0 }],
    listIncompleteUploads := fun _ _ _ => [],
    bucketExists := fun _ => none,
    statObject := fun _ _ => Except.error (StatErr.response (str "NoSuchKey")) }

/-- C5 counterexample: the object stat misses, the retry listing yields one
item, yet `Stat` returns neither a Directory entry nor the original
not-found failure -- it propagates the item's error. -/
theorem s3Stat_noSuchKey_counterexample :
    ((apiStatErrList.listObjects (str "b") (str "o/") false).length = 1) ∧
      s3Stat csPlay apiStatErrList = Except.error (ClientErr.sdk (str "boom")) := by
  decide

/-- SDK responses of the C6 counterexample: the recursive object listing
yields an error item followed by a successful item. -/
def apiErrThenOk : S3Api :=
  { now := 0, listBuckets := [],
    listObjects := fun _ _ _ =>
      [{ Err := some (str "boom"), Key := [], Size := 0, LastModified := 0, Initiated := 0 },
       { Err := none, Key := str "k", Size := 7, LastModified := 3, Initiated := 0 }],
    listIncompleteUploads := fun _ _ _ => [],
    bucketExists := fun _ => none,
    statObject := fun _ _ => Except.error (StatErr.generic (str "x")) }

/-- SDK responses of the C6 witness: a failing bucket-existence probe and
empty listings. -/
def apiBucketDenied : S3Api :=
  { now := 0, listBuckets := [],
    listObjects := fun _ _ _ => [],
    listIncompleteUploads := fun _ _ _ => [],
    bucketExists := fun _ => some (str "access denied"),
    statObject := fun _ _ => Except.error (StatErr.generic (str "x")) }

/-- Client state of the C6 witness: a bucket-only object location
`https://play.minio.io:9000/b`. -/
def csBucketOnly : ClientState :=
  { hostURL := NewURL (str "https://play.minio.io:9000/b"),
    virtualStyle := isVirtualHostStyle (NewURL (str "https://play.minio.io:9000/b")).Host }

/-- Process defaults of the C8 witness. -/
def gMigrate : Globals :=
  { accessKeyID := str "G", secretAccessKey := str "S" }

/-- Version-5 document of the C8 witness whose first `s3` host carries
non-default, non-empty credentials and therefore survives. -/
def confKeepV5 : configV5 :=
  { Version := str "5", Aliases := [],
    Hosts := [(str "play.s3.example",
        { AccessKeyID := str "A", SecretAccessKey := str "B", API := str "S3v4" }),
      (str "other.s3.example",
        { AccessKeyID := str "C", SecretAccessKey := str "D", API := str "S3v4" })] }

/-- Version-5 document of the C8 witness whose first `s3` host carries the
default access key and is therefore deleted. -/
def confDelV5 : configV5 :=
  { Version := str "5", Aliases := [],
    Hosts := [(str "play.s3.example",
      { AccessKeyID := str "G", SecretAccessKey := str "T", API := str "S3v4" })] }

/-- C6 counterexample: in the recursive list variant the producer emits an
entry carrying an error and then emits a further (error-free) entry, so the
error does not terminate the stream. -/
theorem list_error_terminates_counterexample :
    (listRecursiveInRoutine csPlay apiErrThenOk).length = 2 ∧
      ((listRecursiveInRoutine csPlay apiErrThenOk).headD Content.zero).Err =
        some (str "boom") ∧
      ((listRecursiveInRoutine csPlay apiErrThenOk).getLastD Content.zero).Err = none ∧
      errorsTerminal (listRecursiveInRoutine csPlay apiErrThenOk) = false := by
  decide

/-- C8 counterexample: a host entry whose key does not contain `s3` is
carried through by the 5-to-6 migration even though both of its credentials
equal the process-wide defaults, which the claim says forces deletion. -/
theorem migrateV5ToV6_counterexample :
    alistLookup (str "minio.example.org")
      (migrateConfigV5ToV6
        { accessKeyID := str "DEFAULTKEY", secretAccessKey := str "DEFAULTSECRET" }
        { Version := str "5", Aliases := [],
          Hosts := [(str "minio.example.org",
            { AccessKeyID := str "DEFAULTKEY", SecretAccessKey := str "DEFAULTSECRET",
              API := str "S3v4" })] }).Hosts =
      some { AccessKeyID := str "DEFAULTKEY", SecretAccessKey := str "DEFAULTSECRET",
             API := str "S3v4" } := by
  decide

/-- C9 counterexample: a version-6 document with the single bare host key
`example.com:9000` comes out of the hosts fix-up pass with an empty hosts
map -- the entry appears under neither its original nor a scheme-qualified
key, so data is lost. -/
theorem fixConfigV6ForHosts_counterexample :
    (fixConfigV6ForHosts
      { Version := str "6", Aliases := [],
        Hosts := [(str "example.com:9000",
          { AccessKeyID := str "A", SecretAccessKey := str "S",
            API := str "S3v4" })] }).Hosts = [] := by
  decide

/-! ## String lemmas -/

theorem str_schemeSep_eq : str "://" = [':', '/', '/'] := rfl

theorem str_slash2_eq : str "//" = ['/', '/'] := rfl

theorem str_slash_eq : str "/" = ['/'] := rfl

theorem str_qmark_eq : str "?" = ['?'] := rfl

theorem str_colon_eq : str ":" = [':'] := rfl

theorem strStartsWith_nil_right (s : Str) : strStartsWith s [] = true := by
  cases s <;> rfl

theorem strStartsWith_nil_left (pat : Str) (h : pat ≠ []) :
    strStartsWith [] pat = false := by
  cases pat with
  | nil => exact absurd rfl h
  | cons p ps => rfl

theorem strStartsWith_append_self (x y : Str) : strStartsWith (x ++ y) x = true := by
  induction x with
  | nil => simpa using strStartsWith_nil_right y
  | cons a x ih => simp [strStartsWith, ih]

theorem strStartsWith_extend (s r pat : Str) (h : strStartsWith s pat = true) :
    strStartsWith (s ++ r) pat = true := by
  induction pat generalizing s with
  | nil => exact strStartsWith_nil_right _
  | cons p ps ih =>
    cases s with
    | nil => simp [strStartsWith_nil_left (p :: ps) (by simp)] at h
    | cons c s =>
      simp only [strStartsWith, Bool.and_eq_true, decide_eq_true_eq] at h
      simp [strStartsWith, h.1, ih s h.2]

theorem strIndex_nil (pat : Str) (h : pat ≠ []) : strIndex [] pat = none := by
  simp [strIndex, strStartsWith_nil_left pat h]

theorem strIndex_none_of_append (x r pat : Str) (hp : pat ≠ [])
    (h : strIndex (x ++ r) pat = none) : strIndex x pat = none := by
  induction x with
  | nil => exact strIndex_nil pat hp
  | cons c x ih =>
    rw [List.cons_append] at h
    simp only [strIndex, List.append_eq] at h ⊢
    by_cases hs : strStartsWith (c :: x) pat = true
    · have hs' : strStartsWith (c :: (x ++ r)) pat = true := by
        have := strStartsWith_extend (c :: x) r pat hs
        simpa using this
      rw [if_pos hs'] at h
      simp at h
    · rw [if_neg hs]
      by_cases hs' : strStartsWith (c :: (x ++ r)) pat = true
      · rw [if_pos hs'] at h; simp at h
      · rw [if_neg hs'] at h
        simp only [Option.map_eq_none'] at h ⊢
        exact ih h

theorem strIndex_append_sep (x y : Str) (hx : ∀ a ∈ x, a ≠ ':') :
    strIndex (x ++ str "://" ++ y) (str "://") = some x.length := by
  induction x with
  | nil =>
    simp only [List.nil_append, List.length_nil, str_schemeSep_eq, List.cons_append,
      List.nil_append]
    simp [strIndex, strStartsWith, strStartsWith_nil_right]
  | cons a x ih =>
    have ha : a ≠ ':' := hx a (List.mem_cons_self a x)
    have ih' := ih (fun b hb => hx b (List.mem_cons_of_mem a hb))
    rw [str_schemeSep_eq] at ih' ⊢
    simp only [List.cons_append, List.nil_append] at ih' ⊢
    simp only [strIndex, List.append_eq]
    rw [if_neg (by simp [strStartsWith, ha])]
    try simp only [List.append_eq] at ih'
    rw [ih']
    simp

theorem splitAllAux_ne_nil (f : Nat) (x sep : Str) : splitAllAux f x sep ≠ [] := by
  cases f with
  | zero => simp [splitAllAux]
  | succ g =>
    simp only [splitAllAux]
    cases strIndex x sep <;> simp

theorem splitAllAux_of_index_none (f : Nat) (x sep : Str)
    (h : strIndex x sep = none) : splitAllAux f x sep = [x] := by
  cases f with
  | zero => rfl
  | succ g => simp [splitAllAux, h]

theorem splitAllAux_singleton (g : Nat) (x sep y : Str)
    (h : splitAllAux (g + 1) x sep = [y]) : y = x ∧ strIndex x sep = none := by
  simp only [splitAllAux] at h
  cases hi : strIndex x sep with
  | none => rw [hi] at h; simp at h; exact ⟨h.symm, rfl⟩
  | some i =>
    rw [hi] at h
    simp only [List.cons_eq_cons] at h
    exact absurd h.2 (splitAllAux_ne_nil g _ sep)

theorem stringsSplit_pair_snd_index (s sep a b : Str) (hsep : sep ≠ [])
    (h : stringsSplit s sep = [a, b]) : strIndex b sep = none := by
  unfold stringsSplit at h
  simp only [splitAllAux] at h
  cases hi : strIndex s sep with
  | none => rw [hi] at h; simp at h
  | some i =>
    rw [hi] at h
    simp only [List.cons_eq_cons] at h
    have h2 := h.2
    cases hl : s.length with
    | zero =>
      have hnil : s = [] := List.length_eq_zero.mp hl
      rw [hnil, strIndex_nil sep hsep] at hi
      exact absurd hi (by simp)
    | succ g =>
      rw [hl] at h2
      have := splitAllAux_singleton g _ sep b h2
      rw [this.1]
      exact this.2

theorem stringsSplit_of_clean (x y : Str) (hx : ∀ a ∈ x, a ≠ ':')
    (hy : strIndex y (str "://") = none) :
    stringsSplit (x ++ str "://" ++ y) (str "://") = [x, y] := by
  unfold stringsSplit
  have hlen : (x ++ str "://" ++ y).length = x.length + 3 + y.length + 1 - 1 := by
    simp [str_schemeSep_eq]; omega
  rw [hlen]
  have hidx := strIndex_append_sep x y hx
  have hsucc : x.length + 3 + y.length + 1 - 1 + 1 = (x.length + 3 + y.length) + 1 := by omega
  rw [hsucc]
  simp only [splitAllAux, hidx]
  have htake : (x ++ str "://" ++ y).take x.length = x := by
    rw [List.append_assoc]
    exact List.take_left x _
  have hdrop : (x ++ str "://" ++ y).drop (x.length + (str "://").length) = y := by
    have hgrp : x ++ str "://" ++ y = (x ++ str "://") ++ y := by simp
    rw [hgrp, show x.length + (str "://").length = (x ++ str "://").length by simp]
    exact List.drop_left _ _
  rw [htake, hdrop, splitAllAux_of_index_none _ y _ hy]

theorem strIndex_single_none_iff (s : Str) (c : Char) :
    strIndex s [c] = none ↔ ∀ a ∈ s, a ≠ c := by
  induction s with
  | nil => simp [strIndex_nil [c] (by simp)]
  | cons a t ih =>
    by_cases hac : a = c
    · subst hac
      have hs : strStartsWith (a :: t) [a] = true := by
        simp [strStartsWith, strStartsWith_nil_right]
      simp [strIndex, hs]
    · have hs : strStartsWith (a :: t) [c] = false := by simp [strStartsWith, hac]
      simp [strIndex, hs, hac, ih]

theorem takeWhile_eq_self_of_all {p : Char → Bool} (s : Str)
    (h : ∀ a ∈ s, p a = true) : s.takeWhile p = s := by
  induction s with
  | nil => rfl
  | cons a t ih =>
    rw [List.takeWhile_cons, if_pos (h a (List.mem_cons_self a t))]
    rw [ih (fun b hb => h b (List.mem_cons_of_mem a hb))]

theorem splitSpecial_fst (s d : Str) (b : Bool) :
    (splitSpecial s d b).1 =
      match strIndex s d with
      | none => s
      | some i => s.take i := by
  unfold splitSpecial
  cases strIndex s d with
  | none => rfl
  | some i => cases b <;> rfl

theorem splitSpecial_snd_keep (s d : Str) :
    (splitSpecial s d false).2 =
      match strIndex s d with
      | none => []
      | some i => s.drop i := by
  unfold splitSpecial
  cases strIndex s d <;> rfl

theorem strIndex_cons_single_ne (a : Char) (t : Str) (c : Char) (hac : a ≠ c) :
    strIndex (a :: t) [c] = (strIndex t [c]).map (· + 1) := by
  have hs : strStartsWith (a :: t) [c] = false := by simp [strStartsWith, hac]
  simp [strIndex, hs]

theorem strIndex_cons_single_eq (a : Char) (t : Str) :
    strIndex (a :: t) [a] = some 0 := by
  have hs : strStartsWith (a :: t) [a] = true := by
    simp [strStartsWith, strStartsWith_nil_right]
  simp [strIndex, hs]

theorem splitSpecial_fst_single (s : Str) (c : Char) (b : Bool) :
    (splitSpecial s [c] b).1 = s.takeWhile (fun a => decide (a ≠ c)) := by
  induction s with
  | nil => simp [splitSpecial_fst]; rw [strIndex_nil [c] (by simp)]
  | cons a t ih =>
    by_cases hac : a = c
    · subst hac
      rw [splitSpecial_fst, strIndex_cons_single_eq]
      simp [List.takeWhile_cons]
    · rw [splitSpecial_fst, strIndex_cons_single_ne a t c hac]
      rw [splitSpecial_fst] at ih
      cases hit : strIndex t [c] with
      | none =>
        rw [hit] at ih
        simp only [Option.map_none']
        rw [List.takeWhile_cons, if_pos (by simp [hac])]
        rw [← ih]
      | some i =>
        rw [hit] at ih
        simp only [Option.map_some']
        rw [List.takeWhile_cons, if_pos (by simp [hac])]
        rw [List.take_succ_cons]
        exact congrArg (List.cons a) ih

theorem splitSpecial_snd_single_keep (s : Str) (c : Char) :
    (splitSpecial s [c] false).2 = s.dropWhile (fun a => decide (a ≠ c)) := by
  induction s with
  | nil => simp [splitSpecial_snd_keep]; rw [strIndex_nil [c] (by simp)]
  | cons a t ih =>
    by_cases hac : a = c
    · subst hac
      rw [splitSpecial_snd_keep, strIndex_cons_single_eq]
      simp [List.dropWhile_cons]
    · rw [splitSpecial_snd_keep, strIndex_cons_single_ne a t c hac]
      rw [splitSpecial_snd_keep] at ih
      cases hit : strIndex t [c] with
      | none =>
        rw [hit] at ih
        simp only [Option.map_none']
        rw [List.dropWhile_cons, if_pos (by simp [hac])]
        exact ih
      | some i =>
        rw [hit] at ih
        simp only [Option.map_some']
        rw [List.dropWhile_cons, if_pos (by simp [hac])]
        rw [List.drop_succ_cons]
        exact ih

theorem takeWhile_append_of_all {p : Char → Bool} (x y : Str)
    (hx : ∀ a ∈ x, p a = true) : (x ++ y).takeWhile p = x ++ y.takeWhile p := by
  induction x with
  | nil => rfl
  | cons a t ih =>
    rw [List.cons_append, List.takeWhile_cons, if_pos (hx a (List.mem_cons_self a t))]
    rw [ih (fun b hb => hx b (List.mem_cons_of_mem a hb))]
    rfl

theorem dropWhile_append_of_all {p : Char → Bool} (x y : Str)
    (hx : ∀ a ∈ x, p a = true) : (x ++ y).dropWhile p = y.dropWhile p := by
  induction x with
  | nil => rfl
  | cons a t ih =>
    rw [List.cons_append, List.dropWhile_cons, if_pos (hx a (List.mem_cons_self a t))]
    exact ih (fun b hb => hx b (List.mem_cons_of_mem a hb))

theorem strEndsWith_decomp (p : Str) (c : Char) (h : strEndsWith p [c] = true) :
    p = p.take (p.length - 1) ++ [c] := by
  unfold strEndsWith at h
  cases hr : p.reverse with
  | nil => rw [hr] at h; simp [strStartsWith] at h
  | cons c' r =>
    rw [hr] at h
    have hcc : c' = c := by
      simp only [List.reverse_singleton] at h
      simp [strStartsWith, strStartsWith_nil_right] at h
      exact h
    have hp : p = r.reverse ++ [c'] := by
      have := congrArg List.reverse hr
      simpa using this
    have hlen : p.length = r.length + 1 := by rw [hp]; simp
    have htake : p.take (p.length - 1) = r.reverse := by
      rw [hlen, Nat.add_sub_cancel]
      conv_lhs => rw [hp]
      rw [show r.length = r.reverse.length from (List.length_reverse r).symm]
      exact List.take_left _ _
    rw [htake, ← hcc]
    exact hp

theorem strEndsWith_append (x u : Str) : strEndsWith (x ++ u) u = true := by
  unfold strEndsWith
  rw [List.reverse_append]
  exact strStartsWith_append_self _ _

theorem strTrimEnd_slash_of_ends (p : Str) (hE : strEndsWith p (str "/") = true) :
    strTrimEnd p (str "/") = p.take (p.length - 1) := by
  unfold strTrimEnd
  rw [if_pos hE]
  rfl

theorem strTrimEnd_no_trailing (p : Str) (h2 : strEndsWith p (str "//") = false) :
    strEndsWith (strTrimEnd p (str "/")) (str "/") = false := by
  by_cases hE : strEndsWith p (str "/") = true
  · have hd := strEndsWith_decomp p '/' (by rw [← str_slash_eq]; exact hE)
    rw [strTrimEnd_slash_of_ends p hE]
    cases hx : strEndsWith (p.take (p.length - 1)) (str "/") with
    | false => rfl
    | true =>
      exfalso
      have hd2 := strEndsWith_decomp _ '/' (by rw [← str_slash_eq]; exact hx)
      have hpp : p = (p.take (p.length - 1)).take ((p.take (p.length - 1)).length - 1)
          ++ ['/', '/'] := by
        conv_lhs => rw [hd]
        rw [hd2]
        simp
      have hcontra : strEndsWith p (str "//") = true := by
        rw [str_slash2_eq, hpp]
        exact strEndsWith_append _ _
      rw [hcontra] at h2
      cases h2
  · have hfalse : strEndsWith p (str "/") = false := by
      cases hx : strEndsWith p (str "/") with
      | false => rfl
      | true => exact absurd hx hE
    unfold strTrimEnd
    rw [if_neg hE]
    exact hfalse

theorem strTrimStart_no_leading (q : Str) (h : strStartsWith q (str "//") = false) :
    strStartsWith (strTrimStart q (str "/")) (str "/") = false := by
  cases q with
  | nil =>
    have : strTrimStart [] (str "/") = [] := by
      unfold strTrimStart
      rw [if_neg (by rw [strStartsWith_nil_left (str "/") (by simp [str_slash_eq])]; simp)]
    rw [this]
    rw [strStartsWith_nil_left (str "/") (by simp [str_slash_eq])]
  | cons a q' =>
    by_cases ha : a = '/'
    · subst ha
      have hs : strStartsWith ('/' :: q') (str "/") = true := by
        simp [str_slash_eq, strStartsWith, strStartsWith_nil_right]
      have hq' : strStartsWith q' (str "/") = false := by
        rw [str_slash2_eq] at h
        rw [str_slash_eq]
        simpa [strStartsWith] using h
      have hdrop : strTrimStart ('/' :: q') (str "/") = q' := by
        unfold strTrimStart
        rw [if_pos hs]
        rfl
      rw [hdrop]
      exact hq'
    · have hs : strStartsWith (a :: q') (str "/") = false := by
        simp [str_slash_eq, strStartsWith, ha]
      have hkeep : strTrimStart (a :: q') (str "/") = a :: q' := by
        unfold strTrimStart
        rw [if_neg (by rw [hs]; simp)]
      rw [hkeep]
      exact hs

theorem joinURLs_path (u1 u2 : URL) :
    (JoinURLs u1 u2).Path =
      if strEndsWith u1.Path (str "/") then u1.Path ++ strTrimStart u2.Path (str "/")
      else u1.Path ++ str "/" ++ strTrimStart u2.Path (str "/") := by
  unfold JoinURLs
  cases h : u1.Typ with
  | Object =>
    simp only [h, reduceIte]
    split <;> simp
  | Filesystem =>
    simp only [h, reduceIte]
    split <;> simp

/-! ## C7 (amended): unrecognized inputs parse to Filesystem locations -/

/-- Helper: an input with no scheme split, no query separator and no leading
`//` parses to a Filesystem location holding the raw input. -/
theorem newURL_untouched (s : Str) (h1 : getScheme s = ([], s))
    (h2 : strIndex s (str "?") = none) (h3 : strStartsWith s (str "//") = false) :
    NewURL s = fsURL s := by
  simp only [NewURL, h1, splitSpecial, h2, h3]
  simp

/-- C7 (amended): parse never fails and every input not recognized as an
object-storage url yields a Filesystem location; its path is the raw input
unchanged whenever the scheme split fails, the input holds no query separator
and does not begin with `//` (the query suffix and/or the authority segment
are otherwise stripped, as the counterexample shows). -/
theorem parse_fallback_amended (s : Str) :
    ((NewURL s).Typ ≠ URLType.Object → (NewURL s).Typ = URLType.Filesystem) ∧
      (getScheme s = ([], s) → strIndex s (str "?") = none →
        strStartsWith s (str "//") = false → NewURL s = fsURL s) := by
  constructor
  · intro hne
    cases h : (NewURL s).Typ with
    | Object => exact absurd h hne
    | Filesystem => rfl
  · exact newURL_untouched s

/-- Witness for the C7 amendment at the untouched input `some/file`. -/
theorem parse_fallback_amended_witness :
    ((NewURL (str "some/file")).Typ = URLType.Filesystem) ∧
      NewURL (str "some/file") = fsURL (str "some/file") :=
  ⟨(parse_fallback_amended (str "some/file")).1 (by decide),
   (parse_fallback_amended (str "some/file")).2 (by decide) (by decide) (by decide)⟩

/-! ## C3 (amended): join inserts exactly one separator for tame inputs -/

/-- C3 (amended): joining inserts exactly one separator at the parent/child
boundary whenever the parent path does not already end in a double separator
and the child path does not begin with one: the result is the parent less one
trailing separator, one separator, then the child less one leading separator,
with the two trimmed sides separator-free at the boundary.  (A parent ending
in `//` or a child starting with `//` defeats this, as the counterexample
shows.) -/
theorem joinURLs_single_separator (u1 u2 : URL)
    (h1 : strEndsWith u1.Path (str "//") = false)
    (h2 : strStartsWith u2.Path (str "//") = false) :
    (JoinURLs u1 u2).Path =
      strTrimEnd u1.Path (str "/") ++ str "/" ++ strTrimStart u2.Path (str "/") ∧
      strEndsWith (strTrimEnd u1.Path (str "/")) (str "/") = false ∧
      strStartsWith (strTrimStart u2.Path (str "/")) (str "/") = false := by
  refine ⟨?_, strTrimEnd_no_trailing _ h1, strTrimStart_no_leading _ h2⟩
  rw [joinURLs_path]
  by_cases hE : strEndsWith u1.Path (str "/") = true
  · rw [if_pos hE]
    have hd := strEndsWith_decomp u1.Path '/' (by rw [← str_slash_eq]; exact hE)
    rw [strTrimEnd_slash_of_ends u1.Path hE]
    conv_lhs => rw [hd]
    simp [str_slash_eq]
  · rw [if_neg hE]
    have ht : strTrimEnd u1.Path (str "/") = u1.Path := by
      unfold strTrimEnd
      rw [if_neg hE]
    rw [ht]

/-- Witness for the C3 amendment: a parent ending in one separator and a
child starting with one still produce exactly one separator. -/
theorem joinURLs_single_separator_witness :
    (JoinURLs (fsURL (str "a/")) (fsURL (str "/b"))).Path =
      strTrimEnd (fsURL (str "a/")).Path (str "/") ++ str "/" ++
        strTrimStart (fsURL (str "/b")).Path (str "/") ∧
      strEndsWith (strTrimEnd (fsURL (str "a/")).Path (str "/")) (str "/") = false ∧
      strStartsWith (strTrimStart (fsURL (str "/b")).Path (str "/")) (str "/") = false :=
  joinURLs_single_separator (fsURL (str "a/")) (fsURL (str "/b")) (by decide) (by decide)

/-! ## C1: ObjectStore iff recognized scheme://host form -/

theorem newURL_typ_of_fallback (s : Str) (hg : getScheme s = ([], s)) :
    (NewURL s).Typ = URLType.Filesystem := by
  simp only [NewURL, hg]
  by_cases hpre : strStartsWith ((splitSpecial s (str "?") true).1) (str "//") = true
  · rw [if_pos hpre]
    rw [if_neg]
    · rfl
    · intro hcond
      rw [Bool.and_eq_true] at hcond
      exact absurd hcond.2 (by decide)
  · rw [if_neg hpre]
    rfl

theorem objectStoreCond_false_of_not_pair (s : Str)
    (h : ∀ a b : Str, stringsSplit s (str "://") ≠ [a, b]) :
    objectStoreCond s = false := by
  unfold objectStoreCond
  cases hsp : stringsSplit s (str "://") with
  | nil => rfl
  | cons a l =>
    cases l with
    | nil => rfl
    | cons b l2 =>
      cases l2 with
      | nil => exact absurd hsp (h a b)
      | cons c l3 => rfl

theorem objectStoreCond_pair (s a b : Str)
    (hsp : stringsSplit s (str "://") = [a, b]) :
    objectStoreCond s =
      ((validScheme a && (a = str "http" || a = str "https")) &&
        (!strContains ((b.takeWhile (fun x => decide (x ≠ '?'))).takeWhile
            (fun x => decide (x ≠ '/'))) (str "@") &&
          !((b.takeWhile (fun x => decide (x ≠ '?'))).takeWhile
            (fun x => decide (x ≠ '/'))).isEmpty)) := by
  unfold objectStoreCond
  rw [hsp]

/-- C1: counterexample to the claimed equivalence with the spec's recognized
`scheme://host/...` form.  Splitting `https://h/a://b` on the FIRST `://` (the
spec's algorithm) gives scheme `https` and nonempty `@`-free authority `h`,
so the spec recognizes an ObjectStore form; the code's `strings.Split`
instead yields three pieces because of the second `://`, and parsing falls
back to a Filesystem location. -/
theorem newURL_objectStore_counterexample :
    specIsObjectStore (str "https://h/a://b") = true ∧
      (NewURL (str "https://h/a://b")).Typ = URLType.Filesystem := by
  decide

/-- C1 (amended): for every input string, parse yields an ObjectStore
location exactly when the input contains exactly one `://` (the two-piece
`strings.Split`) with an alphabetic `http`/`https` scheme and, after query
stripping, a nonempty `@`-free authority.  This differs from the spec's
split-on-the-first-`://` algorithm, as the counterexample shows. -/
theorem newURL_objectStore_amended (s : Str) :
    (NewURL s).Typ = URLType.Object ↔ objectStoreCond s = true := by
  cases hsp : stringsSplit s (str "://") with
  | nil =>
    have hg : getScheme s = ([], s) := by simp [getScheme, hsp]
    rw [newURL_typ_of_fallback s hg,
      objectStoreCond_false_of_not_pair s (by intro a b hab; rw [hsp] at hab; cases hab)]
    simp
  | cons a l =>
    cases l with
    | nil =>
      have hg : getScheme s = ([], s) := by simp [getScheme, hsp]
      rw [newURL_typ_of_fallback s hg,
        objectStoreCond_false_of_not_pair s (by intro x y hxy; rw [hsp] at hxy; cases hxy)]
      simp
    | cons b l2 =>
      cases l2 with
      | cons c l3 =>
        have hg : getScheme s = ([], s) := by simp [getScheme, hsp]
        rw [newURL_typ_of_fallback s hg,
          objectStoreCond_false_of_not_pair s (by intro x y hxy; rw [hsp] at hxy; cases hxy)]
        simp
      | nil =>
        by_cases hv : validScheme a = true
        · have hne : (str "//" ++ b).isEmpty = false := rfl
          have hg : getScheme s = (a, str "//" ++ b) := by
            simp [getScheme, hsp, hne, hv]
          have hq : (splitSpecial (str "//" ++ b) (str "?") true).1 =
              str "//" ++ b.takeWhile (fun x => decide (x ≠ '?')) := by
            rw [str_qmark_eq, splitSpecial_fst_single]
            rw [takeWhile_append_of_all (str "//") b (by decide)]
          have hpre : strStartsWith (str "//" ++ b.takeWhile (fun x => decide (x ≠ '?')))
              (str "//") = true := strStartsWith_append_self _ _
          have hdrop : (str "//" ++ b.takeWhile (fun x => decide (x ≠ '?'))).drop 2 =
              b.takeWhile (fun x => decide (x ≠ '?')) := by
            rw [show (2 : Nat) = (str "//").length from rfl]
            exact List.drop_left _ _
          have hauth : (splitSpecial (b.takeWhile (fun x => decide (x ≠ '?')))
              (str "/") false).1 =
              (b.takeWhile (fun x => decide (x ≠ '?'))).takeWhile
                (fun x => decide (x ≠ '/')) := by
            rw [str_slash_eq, splitSpecial_fst_single]
          simp only [NewURL, hg, hq, hdrop, hauth]
          rw [if_pos hpre]
          rw [objectStoreCond_pair s a b hsp]
          set auth := (b.takeWhile (fun x => decide (x ≠ '?'))).takeWhile
            (fun x => decide (x ≠ '/')) with hauthdef
          by_cases hat : strContains auth (str "@") = true
          · have hhost : getHost auth = [] := by
              unfold getHost
              rw [if_pos hat]
            rw [hhost]
            have hcfalse : ¬((!List.isEmpty ([] : Str) &&
                (decide (a = str "http") || decide (a = str "https"))) = true) := by
              intro hcond
              rw [Bool.and_eq_true] at hcond
              exact absurd hcond.1 (by decide)
            rw [if_neg hcfalse]
            constructor
            · intro h; exact absurd h (by intro hx; cases hx)
            · intro h
              simp only [Bool.and_eq_true] at h
              rw [hat] at h
              exact absurd h.2.1 (by decide)
          · have hat' : strContains auth (str "@") = false := by
              cases hx : strContains auth (str "@") with
              | false => rfl
              | true => exact absurd hx hat
            have hhost : getHost auth = auth := by
              unfold getHost
              rw [if_neg (by rw [hat']; intro hx; cases hx)]
            rw [hhost]
            by_cases hc : (!auth.isEmpty &&
                (decide (a = str "http") || decide (a = str "https"))) = true
            · rw [if_pos hc]
              rw [Bool.and_eq_true] at hc
              constructor
              · intro _
                simp only [Bool.and_eq_true]
                refine ⟨⟨hv, hc.2⟩, ?_, hc.1⟩
                rw [hat']
                rfl
              · intro _
                rfl
            · rw [if_neg hc]
              constructor
              · intro h; exact absurd h (by intro hx; cases hx)
              · intro h
                simp only [Bool.and_eq_true] at h
                have hc2 : (!auth.isEmpty &&
                    (decide (a = str "http") || decide (a = str "https"))) = true := by
                  rw [Bool.and_eq_true]
                  exact ⟨h.2.2, h.1.2⟩
                exact absurd hc2 hc
        · have hv' : validScheme a = false := by
            cases hx : validScheme a with
            | false => rfl
            | true => exact absurd hx hv
          have hg : getScheme s = ([], s) := by
            simp [getScheme, hsp, hv']
          rw [newURL_typ_of_fallback s hg]
          rw [objectStoreCond_pair s a b hsp]
          simp [hv']

/-! ## C2 (amended): round-trip stability of the canonical form -/

theorem strIndex_slash_append_none (h : Str) (hh : ∀ x ∈ h, x ≠ '/') :
    strIndex (h ++ ['/']) (str "://") = none := by
  rw [str_schemeSep_eq]
  induction h with
  | nil => decide
  | cons a h' ih =>
    have ha : a ≠ '/' := hh a (List.mem_cons_self a h')
    have ih' := ih (fun x hx => hh x (List.mem_cons_of_mem a hx))
    rw [List.cons_append]
    have hsw : strStartsWith (a :: (h' ++ ['/'])) [':', '/', '/'] = false := by
      by_cases hac : a = ':'
      · subst hac
        cases h' with
        | nil => decide
        | cons b h'' =>
          have hb : b ≠ '/' := hh b (by simp)
          simp [strStartsWith, hb]
      · simp [strStartsWith, hac]
    simp [strIndex, hsw, ih']

theorem dropWhile_head_not (p : Char → Bool) (l : Str) (c : Char) (t : Str)
    (h : l.dropWhile p = c :: t) : p c = false := by
  induction l with
  | nil => cases h
  | cons a l' ih =>
    rw [List.dropWhile_cons] at h
    by_cases hpa : p a = true
    · rw [if_pos hpa] at h
      exact ih h
    · rw [if_neg hpa] at h
      cases h
      cases hx : p c with
      | false => rfl
      | true => exact absurd hx hpa

theorem validScheme_no_colon (a : Str) (hv : validScheme a = true) :
    ∀ x ∈ a, x ≠ ':' := by
  unfold validScheme at hv
  rw [Bool.and_eq_true] at hv
  have hall := hv.2
  rw [List.all_eq_true] at hall
  intro x hx heq
  have := hall x hx
  rw [heq] at this
  exact absurd this (by decide)

theorem getScheme_of_split (u a rest : Str)
    (hsp2 : stringsSplit u (str "://") = [a, rest]) (hv : validScheme a = true) :
    getScheme u = (a, str "//" ++ rest) := by
  unfold getScheme
  rw [hsp2]
  have hne2 : (str "//" ++ rest).isEmpty = false := rfl
  simp [hne2, hv]

theorem newURL_roundtrip_object (s : Str) (hobj : (NewURL s).Typ = URLType.Object) :
    NewURL (URL.String (NewURL s)) = NewURL s := by
  cases hsp : stringsSplit s (str "://") with
  | nil =>
    have hg : getScheme s = ([], s) := by simp [getScheme, hsp]
    rw [newURL_typ_of_fallback s hg] at hobj
    exact absurd hobj (by decide)
  | cons a l =>
    cases l with
    | nil =>
      have hg : getScheme s = ([], s) := by simp [getScheme, hsp]
      rw [newURL_typ_of_fallback s hg] at hobj
      exact absurd hobj (by decide)
    | cons b l2 =>
      cases l2 with
      | cons c l3 =>
        have hg : getScheme s = ([], s) := by simp [getScheme, hsp]
        rw [newURL_typ_of_fallback s hg] at hobj
        exact absurd hobj (by decide)
      | nil =>
        by_cases hv : validScheme a = true
        case neg =>
          have hv' : validScheme a = false := by
            cases hx : validScheme a with
            | false => rfl
            | true => exact absurd hx hv
          have hg : getScheme s = ([], s) := by simp [getScheme, hsp, hv']
          rw [newURL_typ_of_fallback s hg] at hobj
          exact absurd hobj (by decide)
        case pos =>
        have hne : (str "//" ++ b).isEmpty = false := rfl
        have hg : getScheme s = (a, str "//" ++ b) := by
          simp [getScheme, hsp, hne, hv]
        have hq : (splitSpecial (str "//" ++ b) (str "?") true).1 =
            str "//" ++ b.takeWhile (fun x => decide (x ≠ '?')) := by
          rw [str_qmark_eq, splitSpecial_fst_single]
          rw [takeWhile_append_of_all (str "//") b (by decide)]
        have hpre : strStartsWith (str "//" ++ b.takeWhile (fun x => decide (x ≠ '?')))
            (str "//") = true := strStartsWith_append_self _ _
        have hdrop : (str "//" ++ b.takeWhile (fun x => decide (x ≠ '?'))).drop 2 =
            b.takeWhile (fun x => decide (x ≠ '?')) := by
          rw [show (2 : Nat) = (str "//").length from rfl]
          exact List.drop_left _ _
        have hauth : (splitSpecial (b.takeWhile (fun x => decide (x ≠ '?')))
            (str "/") false).1 =
            (b.takeWhile (fun x => decide (x ≠ '?'))).takeWhile
              (fun x => decide (x ≠ '/')) := by
          rw [str_slash_eq, splitSpecial_fst_single]
        have hsnd : (splitSpecial (b.takeWhile (fun x => decide (x ≠ '?')))
            (str "/") false).2 =
            (b.takeWhile (fun x => decide (x ≠ '?'))).dropWhile
              (fun x => decide (x ≠ '/')) := by
          rw [str_slash_eq, splitSpecial_snd_single_keep]
        rw [show NewURL s =
            (if (!(getHost ((b.takeWhile (fun x => decide (x ≠ '?'))).takeWhile
                  (fun x => decide (x ≠ '/')))).isEmpty &&
                (decide (a = str "http") || decide (a = str "https"))) = true then
              { Typ := URLType.Object, Scheme := a,
                Host := getHost ((b.takeWhile (fun x => decide (x ≠ '?'))).takeWhile
                  (fun x => decide (x ≠ '/'))),
                Path := if ((b.takeWhile (fun x => decide (x ≠ '?'))).dropWhile
                      (fun x => decide (x ≠ '/'))).isEmpty = true then str "/"
                  else (b.takeWhile (fun x => decide (x ≠ '?'))).dropWhile
                    (fun x => decide (x ≠ '/')),
                SchemeSeparator := str "://", Separator := '/' }
            else fsURL (if ((b.takeWhile (fun x => decide (x ≠ '?'))).dropWhile
                  (fun x => decide (x ≠ '/'))).isEmpty = true then str "/"
              else (b.takeWhile (fun x => decide (x ≠ '?'))).dropWhile
                (fun x => decide (x ≠ '/')))) from by
          simp only [NewURL, hg, hq, hdrop, hauth, hsnd]
          rw [if_pos hpre]] at hobj ⊢
        set X := b.takeWhile (fun x => decide (x ≠ '?')) with hXdef
        set auth := X.takeWhile (fun x => decide (x ≠ '/')) with hauthdef
        set D := X.dropWhile (fun x => decide (x ≠ '/')) with hDdef
        by_cases hc : (!(getHost auth).isEmpty &&
            (decide (a = str "http") || decide (a = str "https"))) = true
        case neg =>
          rw [if_neg hc] at hobj
          simp [fsURL] at hobj
        case pos =>
        rw [if_pos hc] at hobj ⊢
        rw [Bool.and_eq_true] at hc
        by_cases hat : strContains auth (str "@") = true
        case pos =>
          have hhost : getHost auth = [] := by
            unfold getHost
            rw [if_pos hat]
          rw [hhost] at hc
          exact absurd hc.1 (by decide)
        case neg =>
        have hat' : strContains auth (str "@") = false := by
          cases hx : strContains auth (str "@") with
          | false => rfl
          | true => exact absurd hx hat
        have hhost : getHost auth = auth := by
          unfold getHost
          rw [if_neg (by rw [hat']; intro hx; cases hx)]
        rw [hhost] at hc ⊢
        -- facts about the pieces
        have hXq : ∀ x ∈ X, x ≠ '?' := by
          intro x hx
          have := List.mem_takeWhile_imp (hXdef ▸ hx)
          simpa using this
        have hauthslash : ∀ x ∈ auth, x ≠ '/' := by
          intro x hx
          have := List.mem_takeWhile_imp (hauthdef ▸ hx)
          simpa using this
        have hauthsubX : ∀ x ∈ auth, x ∈ X := by
          intro x hx
          exact (List.takeWhile_prefix _).subset (hauthdef ▸ hx)
        have hDsubX : ∀ x ∈ D, x ∈ X := by
          intro x hx
          exact (List.dropWhile_suffix _).subset (hDdef ▸ hx)
        have hbsep : strIndex b (str "://") = none :=
          stringsSplit_pair_snd_index s (str "://") a b (by decide) hsp
        have hXsep : strIndex X (str "://") = none := by
          apply strIndex_none_of_append X (b.dropWhile (fun x => decide (x ≠ '?')))
            (str "://") (by decide)
          rw [hXdef, List.takeWhile_append_dropWhile]
          exact hbsep
        have hAD : auth ++ D = X := by
          rw [hauthdef, hDdef, List.takeWhile_append_dropWhile]
        -- the path written back
        by_cases hDe : D.isEmpty = true
        case pos =>
          -- the path is "/" and the canonical form is a ++ "://" ++ auth ++ "/"
          rw [if_pos hDe] at hobj ⊢
          have hstring : URL.String
              { Typ := URLType.Object, Scheme := a, Host := auth, Path := str "/",
                SchemeSeparator := str "://", Separator := '/' } =
              a ++ str "://" ++ (auth ++ str "/") := by
            unfold URL.String
            rw [if_neg (by intro hx; cases hx)]
            simp [str_colon_eq, str_slash_eq, str_schemeSep_eq, str_slash2_eq]
          rw [hstring]
          have hAPsep : strIndex (auth ++ str "/") (str "://") = none := by
            rw [str_slash_eq]
            exact strIndex_slash_append_none auth hauthslash
          have hsplitc := stringsSplit_of_clean a (auth ++ str "/")
            (validScheme_no_colon a hv) hAPsep
          have hgc : getScheme (a ++ str "://" ++ (auth ++ str "/")) =
              (a, str "//" ++ (auth ++ str "/")) :=
            getScheme_of_split _ _ _ hsplitc hv
          have hAPq : strIndex (str "//" ++ (auth ++ str "/")) (str "?") = none := by
            rw [str_qmark_eq]
            rw [strIndex_single_none_iff]
            intro x hx
            rcases List.mem_append.mp hx with h1 | h2
            · rw [show x = '/' by simpa [str_slash2_eq] using h1]
              decide
            · rcases List.mem_append.mp h2 with h3 | h4
              · exact hXq x (hauthsubX x h3)
              · rw [show x = '/' by simpa [str_slash_eq] using h4]
                decide
          have hqc : (splitSpecial (str "//" ++ (auth ++ str "/")) (str "?") true).1 =
              str "//" ++ (auth ++ str "/") := by
            unfold splitSpecial
            rw [hAPq]
          have hprec : strStartsWith (str "//" ++ (auth ++ str "/")) (str "//") = true :=
            strStartsWith_append_self _ _
          have hdropc : (str "//" ++ (auth ++ str "/")).drop 2 = auth ++ str "/" := by
            rw [show (2 : Nat) = (str "//").length from rfl]
            exact List.drop_left _ _
          have hauthc : (splitSpecial (auth ++ str "/") (str "/") false).1 = auth := by
            rw [str_slash_eq, splitSpecial_fst_single]
            rw [takeWhile_append_of_all auth ['/']
              (by intro x hx; simpa using hauthslash x hx)]
            simp [List.takeWhile_cons]
          have hsndc : (splitSpecial (auth ++ str "/") (str "/") false).2 = str "/" := by
            rw [str_slash_eq, splitSpecial_snd_single_keep]
            rw [dropWhile_append_of_all auth ['/']
              (by intro x hx; simpa using hauthslash x hx)]
            simp [List.dropWhile_cons, str_slash_eq]
          simp only [NewURL, hgc, hqc, hdropc, hauthc, hsndc]
          rw [if_pos hprec]
          rw [hhost]
          have hse : (str "/" : Str).isEmpty = false := rfl
          rw [hse]
          simp only [Bool.false_eq_true, if_false]
          rw [if_pos (by rw [Bool.and_eq_true]; exact hc)]
        case neg =>
          have hDe' : D.isEmpty = false := by
            cases hx : D.isEmpty with
            | false => rfl
            | true => exact absurd hx hDe
          rw [if_neg (by rw [hDe']; intro hx; cases hx)] at hobj ⊢
          obtain ⟨d, t, hDform⟩ : ∃ d t, D = d :: t := by
            cases hD : D with
            | nil => rw [hD] at hDe'; cases hDe'
            | cons d t => exact ⟨d, t, rfl⟩
          have hdslash : d = '/' := by
            have := dropWhile_head_not (fun x => decide (x ≠ '/')) X d t (hDdef ▸ hDform)
            simpa using this
          have hstring : URL.String
              { Typ := URLType.Object, Scheme := a, Host := auth, Path := D,
                SchemeSeparator := str "://", Separator := '/' } =
              a ++ str "://" ++ (auth ++ D) := by
            unfold URL.String
            rw [if_neg (by intro hx; cases hx)]
            have hhead : D.headD ' ' = '/' := by rw [hDform, hdslash]; rfl
            rw [hhead]
            simp [str_colon_eq, str_schemeSep_eq, str_slash2_eq]
          rw [hstring, hAD]
          have hsplitc := stringsSplit_of_clean a X (validScheme_no_colon a hv) hXsep
          have hgc : getScheme (a ++ str "://" ++ X) = (a, str "//" ++ X) :=
            getScheme_of_split _ _ _ hsplitc hv
          have hXq2 : strIndex (str "//" ++ X) (str "?") = none := by
            rw [str_qmark_eq]
            rw [strIndex_single_none_iff]
            intro x hx
            rcases List.mem_append.mp hx with h1 | h2
            · rw [show x = '/' by simpa [str_slash2_eq] using h1]
              decide
            · exact hXq x h2
          have hqc : (splitSpecial (str "//" ++ X) (str "?") true).1 = str "//" ++ X := by
            unfold splitSpecial
            rw [hXq2]
          have hprec : strStartsWith (str "//" ++ X) (str "//") = true :=
            strStartsWith_append_self _ _
          have hdropc : (str "//" ++ X).drop 2 = X := by
            rw [show (2 : Nat) = (str "//").length from rfl]
            exact List.drop_left _ _
          have hauthc : (splitSpecial X (str "/") false).1 = auth := by
            rw [str_slash_eq, splitSpecial_fst_single, hauthdef]
          have hsndc : (splitSpecial X (str "/") false).2 = D := by
            rw [str_slash_eq, splitSpecial_snd_single_keep, hDdef]
          simp only [NewURL, hgc, hqc, hdropc, hauthc, hsndc]
          rw [if_pos hprec]
          rw [hhost]
          rw [hDe']
          simp only [Bool.false_eq_true, if_false]
          rw [if_pos (by rw [Bool.and_eq_true]; exact hc)]

/-- C2 (amended): `parse (canonicalString (parse s)) = parse s` holds for
every input that parse recognizes as an ObjectStore location, and for every
input that parsing leaves untouched (no scheme split, no query separator, no
leading `//`); a Filesystem fallback that strips a query suffix or an
authority segment can break the round trip, as the counterexample shows. -/
theorem roundtrip_canonical_amended (s : Str) :
    ((NewURL s).Typ = URLType.Object →
      NewURL (URL.String (NewURL s)) = NewURL s) ∧
      (getScheme s = ([], s) → strIndex s (str "?") = none →
        strStartsWith s (str "//") = false →
        NewURL (URL.String (NewURL s)) = NewURL s) := by
  constructor
  · exact newURL_roundtrip_object s
  · intro h1 h2 h3
    rw [newURL_untouched s h1 h2 h3]
    have hfs : URL.String (fsURL s) = s := rfl
    rw [hfs]
    exact newURL_untouched s h1 h2 h3

/-- Witness for the C2 amendment at the ObjectStore input
`https://play.minio.io:9000/b/o?q`. -/
theorem roundtrip_canonical_amended_witness :
    NewURL (URL.String (NewURL (str "https://play.minio.io:9000/b/o?q"))) =
      NewURL (str "https://play.minio.io:9000/b/o?q") :=
  (roundtrip_canonical_amended (str "https://play.minio.io:9000/b/o?q")).1 (by decide)

/-! ## C5 (amended): the NoSuchKey listing retry of `Stat` -/

/-- C5 (amended): when the object stat misses with `NoSuchKey`, `Stat`
retries as a one-level non-recursive listing under the trimmed object name
plus separator; an empty listing returns the not-found failure for the
location's path, a first listed item free of error reclassifies the location
as a Directory, and a first item carrying an error propagates that error
instead. -/
theorem s3Stat_noSuchKey_retry (cs : ClientState) (api : S3Api) (b o : Str)
    (hbo : url2BucketAndObject cs.hostURL cs.virtualStyle = (b, o))
    (ho : o.isEmpty = false)
    (hmiss : api.statObject b o =
      Except.error (StatErr.response (str "NoSuchKey"))) :
    (api.listObjects b
        (strTrimEnd o [cs.hostURL.Separator] ++ [cs.hostURL.Separator]) false = [] →
      s3Stat cs api = Except.error (ClientErr.pathNotFound cs.hostURL.Path)) ∧
    (∀ first rest, api.listObjects b
        (strTrimEnd o [cs.hostURL.Separator] ++ [cs.hostURL.Separator]) false =
          first :: rest →
      (first.Err = none →
        s3Stat cs api =
          Except.ok { Content.zero with URL := cs.hostURL, Typ := FileMode.dir }) ∧
      (∀ e, first.Err = some e →
        s3Stat cs api = Except.error (ClientErr.sdk e))) := by
  have hcond1 : (b.isEmpty && o.isEmpty) = false := by rw [ho]; simp
  refine ⟨?_, ?_⟩
  · intro hlist
    simp only [s3Stat, hbo, hcond1, Bool.false_eq_true, if_false, ho, Bool.not_false,
      Bool.and_false, if_true, hmiss, hlist]
  · intro first rest hlist
    refine ⟨?_, ?_⟩
    · intro hfe
      simp only [s3Stat, hbo, hcond1, Bool.false_eq_true, if_false, ho, Bool.not_false,
        Bool.and_false, if_true, hmiss, hlist, hfe]
    · intro e hfe
      simp only [s3Stat, hbo, hcond1, Bool.false_eq_true, if_false, ho, Bool.not_false,
        Bool.and_false, if_true, hmiss, hlist, hfe]

/-- SDK responses with a missing object and an empty retry listing. -/
def apiStatEmptyList : S3Api :=
  { now := 0, listBuckets := [],
    listObjects := fun _ _ _ => [],
    listIncompleteUploads := fun _ _ _ => [],
    bucketExists := fun _ => none,
    statObject := fun _ _ => Except.error (StatErr.response (str "NoSuchKey")) }

/-- Witness for the C5 amendment: an empty retry listing yields the
path-not-found failure. -/
theorem s3Stat_noSuchKey_retry_witness :
    s3Stat csPlay apiStatEmptyList =
      Except.error (ClientErr.pathNotFound csPlay.hostURL.Path) :=
  (s3Stat_noSuchKey_retry csPlay apiStatEmptyList (str "b") (str "o")
    (by decide) (by decide) (by decide)).1 (by decide)

/-! ## C6 (amended): error entries terminate the incomplete-upload streams -/

/-- A stream whose entries all carry no error. -/
def allOk (l : List Content) : Bool :=
  l.all (fun c => c.Err.isNone)

theorem errorsTerminal_cons_ok (c : Content) (l : List Content) (hc : c.Err = none)
    (hl : errorsTerminal l = true) : errorsTerminal (c :: l) = true := by
  cases l with
  | nil => rfl
  | cons d m =>
    simp only [errorsTerminal, Bool.and_eq_true]
    exact ⟨by rw [hc]; rfl, hl⟩

theorem errorsTerminal_append (l m : List Content) (hl : allOk l = true)
    (hm : errorsTerminal m = true) : errorsTerminal (l ++ m) = true := by
  induction l with
  | nil => simpa using hm
  | cons c l' ih =>
    unfold allOk at hl
    rw [List.all_cons, Bool.and_eq_true] at hl
    have hc : c.Err = none := Option.isNone_iff_eq_none.mp hl.1
    rw [List.cons_append]
    exact errorsTerminal_cons_ok c (l' ++ m) hc (ih hl.2)

theorem objectsAbortLoop_spec (mk : ObjectStat → Content)
    (hmk : ∀ ob, (mk ob).Err = none) (xs : List ObjectStat) :
    errorsTerminal (objectsAbortLoop mk xs).1 = true ∧
      ((objectsAbortLoop mk xs).2 = false → allOk (objectsAbortLoop mk xs).1 = true) := by
  induction xs with
  | nil => exact ⟨rfl, fun _ => rfl⟩
  | cons obj rest ih =>
    cases he : obj.Err with
    | some e =>
      simp only [objectsAbortLoop, he]
      exact ⟨rfl, fun h => by cases h⟩
    | none =>
      simp only [objectsAbortLoop, he]
      constructor
      · exact errorsTerminal_cons_ok _ _ (hmk obj) ih.1
      · intro h2
        unfold allOk
        rw [List.all_cons, Bool.and_eq_true]
        refine ⟨by rw [hmk obj]; rfl, ?_⟩
        exact ih.2 h2

theorem incompleteBucketsLoop_terminal (api : S3Api) (o : Str) (recursive : Bool)
    (mk : Str → ObjectStat → Content) (hmk : ∀ bn ob, (mk bn ob).Err = none)
    (bkts : List BucketInfo) :
    errorsTerminal (incompleteBucketsLoop api o recursive mk bkts) = true := by
  induction bkts with
  | nil => rfl
  | cons bkt rest ih =>
    cases hbe : bkt.Err with
    | some e =>
      simp only [incompleteBucketsLoop, hbe]
      rfl
    | none =>
      simp only [incompleteBucketsLoop, hbe]
      have hspec := objectsAbortLoop_spec (mk bkt.Name) (hmk bkt.Name)
        (api.listIncompleteUploads bkt.Name o recursive)
      by_cases hab : (objectsAbortLoop (mk bkt.Name)
          (api.listIncompleteUploads bkt.Name o recursive)).2 = true
      · rw [if_pos hab]
        exact hspec.1
      · have hab' : (objectsAbortLoop (mk bkt.Name)
            (api.listIncompleteUploads bkt.Name o recursive)).2 = false := by
          cases hx : (objectsAbortLoop (mk bkt.Name)
              (api.listIncompleteUploads bkt.Name o recursive)).2 with
          | false => rfl
          | true => exact absurd hx hab
        rw [if_neg (by rw [hab']; intro hx; cases hx)]
        exact errorsTerminal_append _ _ (hspec.2 hab') ih

theorem incompleteItemContent_ok (cs : ClientState) (now : Nat) (bn : Str)
    (ob : ObjectStat) : (incompleteItemContent cs now bn ob).Err = none := by
  by_cases h : strEndsWith ob.Key [cs.hostURL.Separator] = true <;>
    simp [incompleteItemContent, h]

theorem incompleteRecOuterContent_ok (cs : ClientState) (bn : Str)
    (ob : ObjectStat) : (incompleteRecOuterContent cs bn ob).Err = none := rfl

theorem incompleteRecDefaultContent_ok (cs : ClientState) (bn : Str)
    (ob : ObjectStat) : (incompleteRecDefaultContent cs bn ob).Err = none := rfl

theorem listItemContent_ok (cs : ClientState) (now : Nat) (bn : Str)
    (ob : ObjectStat) : (listItemContent cs now bn ob).Err = none := by
  by_cases h : strEndsWith ob.Key [cs.hostURL.Separator] = true <;>
    simp [listItemContent, h]

theorem listBucketsAsDirs_terminal (cs : ClientState) (bkts : List BucketInfo) :
    errorsTerminal (listBucketsAsDirs cs bkts) = true := by
  induction bkts with
  | nil => rfl
  | cons bkt rest ih =>
    cases hbe : bkt.Err with
    | some e =>
      simp only [listBucketsAsDirs, hbe]
      rfl
    | none =>
      simp only [listBucketsAsDirs, hbe]
      exact errorsTerminal_cons_ok _ _ rfl ih

/-- C6 (amended): an error entry terminates the produced stream in both
incomplete-upload variants, and in the non-recursive completed-object
variant both on its bucket-enumeration path and on its object-listing path;
on its bucket-existence path that variant instead emits the error entry and
still emits the directory entry.  (The recursive completed-object variant
emitting an error entry and then further entries is the counterexample.) -/
theorem list_errors_terminal (cs : ClientState) (api : S3Api) :
    errorsTerminal (listIncompleteInRoutine cs api) = true ∧
    errorsTerminal (listIncompleteRecursiveInRoutine cs api) = true ∧
    (((url2BucketAndObject cs.hostURL cs.virtualStyle).1.isEmpty &&
        (url2BucketAndObject cs.hostURL cs.virtualStyle).2.isEmpty) = true →
      errorsTerminal (listInRoutine cs api) = true) ∧
    (((url2BucketAndObject cs.hostURL cs.virtualStyle).1.isEmpty &&
        (url2BucketAndObject cs.hostURL cs.virtualStyle).2.isEmpty) = false →
      (!(url2BucketAndObject cs.hostURL cs.virtualStyle).1.isEmpty &&
        !strEndsWith cs.hostURL.Path [cs.hostURL.Separator] &&
        (url2BucketAndObject cs.hostURL cs.virtualStyle).2.isEmpty) = false →
      errorsTerminal (listInRoutine cs api) = true) ∧
    (∀ e : Str,
      ((url2BucketAndObject cs.hostURL cs.virtualStyle).1.isEmpty &&
        (url2BucketAndObject cs.hostURL cs.virtualStyle).2.isEmpty) = false →
      (!(url2BucketAndObject cs.hostURL cs.virtualStyle).1.isEmpty &&
        !strEndsWith cs.hostURL.Path [cs.hostURL.Separator] &&
        (url2BucketAndObject cs.hostURL cs.virtualStyle).2.isEmpty) = true →
      api.bucketExists (url2BucketAndObject cs.hostURL cs.virtualStyle).1 = some e →
      listInRoutine cs api =
        [errContent e, { Content.zero with URL := cs.hostURL, Typ := FileMode.dir }]) := by
  refine ⟨?_, ?_, ?_, ?_, ?_⟩
  · unfold listIncompleteInRoutine
    by_cases hbo : ((url2BucketAndObject cs.hostURL cs.virtualStyle).1.isEmpty &&
        (url2BucketAndObject cs.hostURL cs.virtualStyle).2.isEmpty) = true
    · rw [if_pos hbo]
      exact incompleteBucketsLoop_terminal api _ false _
        (fun bn ob => incompleteItemContent_ok cs api.now bn ob) api.listBuckets
    · rw [if_neg hbo]
      exact (objectsAbortLoop_spec _
        (fun ob => incompleteItemContent_ok cs api.now _ ob) _).1
  · unfold listIncompleteRecursiveInRoutine
    by_cases hbo : ((url2BucketAndObject cs.hostURL cs.virtualStyle).1.isEmpty &&
        (url2BucketAndObject cs.hostURL cs.virtualStyle).2.isEmpty) = true
    · rw [if_pos hbo]
      exact incompleteBucketsLoop_terminal api _ true _
        (fun bn ob => incompleteRecOuterContent_ok cs bn ob) api.listBuckets
    · rw [if_neg hbo]
      exact (objectsAbortLoop_spec _
        (fun ob => incompleteRecDefaultContent_ok cs _ ob) _).1
  · intro h1
    unfold listInRoutine
    rw [if_pos h1]
    exact listBucketsAsDirs_terminal cs api.listBuckets
  · intro h1 h2
    unfold listInRoutine
    have h1' : ¬(((url2BucketAndObject cs.hostURL cs.virtualStyle).1.isEmpty &&
        (url2BucketAndObject cs.hostURL cs.virtualStyle).2.isEmpty) = true) := by
      rw [h1]
      intro hx
      cases hx
    have h2' : ¬((!(url2BucketAndObject cs.hostURL cs.virtualStyle).1.isEmpty &&
        !strEndsWith cs.hostURL.Path [cs.hostURL.Separator] &&
        (url2BucketAndObject cs.hostURL cs.virtualStyle).2.isEmpty) = true) := by
      rw [h2]
      intro hx
      cases hx
    rw [if_neg h1', if_neg h2']
    cases hso : api.statObject (url2BucketAndObject cs.hostURL cs.virtualStyle).1
        (url2BucketAndObject cs.hostURL cs.virtualStyle).2 with
    | ok md =>
      simp only [hso]
      rfl
    | error err =>
      simp only [hso]
      exact (objectsAbortLoop_spec _
        (fun ob => listItemContent_ok cs api.now _ ob) _).1
  · intro e h1 h2 hbe
    unfold listInRoutine
    have h1' : ¬(((url2BucketAndObject cs.hostURL cs.virtualStyle).1.isEmpty &&
        (url2BucketAndObject cs.hostURL cs.virtualStyle).2.isEmpty) = true) := by
      rw [h1]
      intro hx
      cases hx
    rw [if_neg h1', if_pos h2]
    simp only [hbe]
    rfl

/-- Witness for the C6 amendment: the non-recursive incomplete variant is
error-terminal, and a failing bucket-existence probe on a bucket-only
location emits the error entry followed by the directory entry. -/
theorem list_errors_terminal_witness :
    errorsTerminal (listIncompleteInRoutine csBucketOnly apiBucketDenied) = true ∧
    listInRoutine csBucketOnly apiBucketDenied =
      [errContent (str "access denied"),
       { Content.zero with URL := csBucketOnly.hostURL, Typ := FileMode.dir }] :=
  ⟨(list_errors_terminal csBucketOnly apiBucketDenied).1,
   (list_errors_terminal csBucketOnly apiBucketDenied).2.2.2.2 (str "access denied")
     (by decide) (by decide) (by decide)⟩

/-! ## C8 (amended): the 5-to-6 migration's s3-host compaction -/

theorem alistLookup_insert_self {α : Type} (k : Str) (v : α) (l : List (Str × α)) :
    alistLookup k (alistInsert k v l) = some v := by
  induction l with
  | nil => simp [alistInsert, alistLookup]
  | cons p rest ih =>
    obtain ⟨pk, pv⟩ := p
    by_cases hp : pk = k
    · simp [alistInsert, hp, alistLookup]
    · simp [alistInsert, hp, alistLookup, ih]

theorem alistLookup_insert_ne {α : Type} (k k' : Str) (v : α) (l : List (Str × α))
    (hne : k' ≠ k) : alistLookup k (alistInsert k' v l) = alistLookup k l := by
  induction l with
  | nil => simp [alistInsert, alistLookup, hne]
  | cons p rest ih =>
    obtain ⟨pk, pv⟩ := p
    by_cases hp : pk = k'
    · subst hp
      simp [alistInsert, alistLookup, hne]
    · by_cases hpk : pk = k
      · subst hpk
        simp [alistInsert, hp, alistLookup]
      · simp [alistInsert, hp, alistLookup, hpk, ih]

theorem alistLookup_delete_self {α : Type} (k : Str) (l : List (Str × α)) :
    alistLookup k (alistDelete k l) = none := by
  induction l with
  | nil => rfl
  | cons p rest ih =>
    obtain ⟨pk, pv⟩ := p
    unfold alistDelete at ih ⊢
    rw [List.filter_cons]
    by_cases hpk : pk = k
    · subst hpk
      rw [if_neg (by simp)]
      exact ih
    · rw [if_pos (by simp [hpk])]
      simp only [alistLookup]
      rw [if_neg hpk]
      exact ih

theorem alistLookup_delete_ne {α : Type} (k k' : Str) (l : List (Str × α))
    (hne : k' ≠ k) : alistLookup k (alistDelete k' l) = alistLookup k l := by
  induction l with
  | nil => rfl
  | cons p rest ih =>
    obtain ⟨pk, pv⟩ := p
    unfold alistDelete at ih ⊢
    rw [List.filter_cons]
    by_cases hpk : pk = k'
    · subst hpk
      rw [if_neg (by simp)]
      rw [ih]
      simp only [alistLookup]
      rw [if_neg hne]
    · rw [if_pos (by simp [hpk])]
      simp only [alistLookup]
      by_cases hk : pk = k
      · rw [if_pos hk, if_pos hk]
      · rw [if_neg hk, if_neg hk]
        exact ih

theorem alistFindS3_contains (l : List (Str × hostConfig)) (fh : Str)
    (fcfg : hostConfig) (h : alistFindS3 l = some (fh, fcfg)) :
    strContains fh (str "s3") = true := by
  induction l with
  | nil => cases h
  | cons p rest ih =>
    obtain ⟨pk, pv⟩ := p
    by_cases hc : strContains pk (str "s3") = true
    · rw [alistFindS3, if_pos hc] at h
      cases h
      exact hc
    · rw [alistFindS3, if_neg hc] at h
      exact ih h

theorem hostConfig_remake_id (l : List (Str × hostConfig)) :
    l.map (fun p =>
      (p.1,
        ({ AccessKeyID := p.2.AccessKeyID, SecretAccessKey := p.2.SecretAccessKey,
           API := p.2.API } : hostConfig))) = l := by
  induction l with
  | nil => rfl
  | cons p rest ih =>
    obtain ⟨pk, pv⟩ := p
    obtain ⟨a1, a2, a3⟩ := pv
    simp [ih]

/-- C8 (amended): the 5-to-6 migration examines only the first host entry (in
iteration order) whose key contains `s3`; that entry is deleted exactly when
its access key equals the default access key OR its secret equals the default
secret, or when either credential is empty -- and is carried through
unchanged when none of those conditions holds; every other host entry,
including later entries whose keys also contain `s3`, is carried through
unchanged (unless shadowed by the two glob keys the step adds), and the
`*storage.googleapis.com` glob entry holding the default credentials is
always added. -/
theorem migrateV5ToV6_amended :
    (∀ (g : Globals) (conf : configV5) (h : Str) (cfg : hostConfig),
      conf.Version = str "5" →
      alistLookup h conf.Hosts = some cfg →
      strContains h (str "s3") = false →
      h ≠ str "*storage.googleapis.com" →
      alistLookup h (migrateConfigV5ToV6 g conf).Hosts = some cfg) ∧
    (∀ (g : Globals) (conf : configV5) (fh : Str) (fcfg : hostConfig),
      conf.Version = str "5" →
      alistFindS3 conf.Hosts = some (fh, fcfg) →
      (fcfg.AccessKeyID = g.accessKeyID ∨ fcfg.SecretAccessKey = g.secretAccessKey ∨
        fcfg.AccessKeyID = [] ∨ fcfg.SecretAccessKey = []) →
      fh ≠ str "*s3*amazonaws.com" →
      fh ≠ str "*storage.googleapis.com" →
      alistLookup fh (migrateConfigV5ToV6 g conf).Hosts = none) ∧
    (∀ (g : Globals) (conf : configV5), conf.Version = str "5" →
      alistLookup (str "*storage.googleapis.com") (migrateConfigV5ToV6 g conf).Hosts =
        some { AccessKeyID := g.accessKeyID, SecretAccessKey := g.secretAccessKey,
               API := str "S3v2" }) ∧
    (∀ (g : Globals) (conf : configV5) (h : Str) (cfg : hostConfig) (fh : Str)
        (fcfg : hostConfig),
      conf.Version = str "5" →
      alistLookup h conf.Hosts = some cfg →
      alistFindS3 conf.Hosts = some (fh, fcfg) →
      h ≠ fh →
      h ≠ str "*s3*amazonaws.com" →
      h ≠ str "*storage.googleapis.com" →
      alistLookup h (migrateConfigV5ToV6 g conf).Hosts = some cfg) ∧
    (∀ (g : Globals) (conf : configV5) (fh : Str) (fcfg : hostConfig),
      conf.Version = str "5" →
      alistFindS3 conf.Hosts = some (fh, fcfg) →
      ¬(fcfg.AccessKeyID = g.accessKeyID ∨ fcfg.SecretAccessKey = g.secretAccessKey ∨
        fcfg.AccessKeyID = [] ∨ fcfg.SecretAccessKey = []) →
      fh ≠ str "*s3*amazonaws.com" →
      fh ≠ str "*storage.googleapis.com" →
      alistLookup fh (migrateConfigV5ToV6 g conf).Hosts = alistLookup fh conf.Hosts) := by
  refine ⟨?_, ?_, ?_, ?_, ?_⟩
  · intro g conf h cfg hv5 hlook hns3 hng
    unfold migrateConfigV5ToV6
    rw [if_pos hv5]
    simp only [hostConfig_remake_id]
    have hne1 : str "*s3*amazonaws.com" ≠ h := by
      intro heq
      rw [← heq] at hns3
      exact absurd hns3 (by decide)
    have hne2 : str "*storage.googleapis.com" ≠ h := fun heq => hng heq.symm
    rw [alistLookup_insert_ne _ _ _ _ hne2, alistLookup_insert_ne _ _ _ _ hne1]
    cases hfind : alistFindS3 conf.Hosts with
    | none =>
      simp only [hfind]
      exact hlook
    | some p =>
      obtain ⟨fh, fcfg⟩ := p
      simp only [hfind]
      have hfh3 := alistFindS3_contains conf.Hosts fh fcfg hfind
      have hfh_ne : fh ≠ h := by
        intro heq
        rw [heq] at hfh3
        rw [hfh3] at hns3
        cases hns3
      have hdel : ∀ (m : List (Str × hostConfig)),
          alistLookup h (alistDelete fh m) = alistLookup h m :=
        fun m => alistLookup_delete_ne h fh m hfh_ne
      split_ifs <;> simp [hdel, hlook]
  · intro g conf fh fcfg hv5 hfind hdisj hglob1 hglob2
    unfold migrateConfigV5ToV6
    rw [if_pos hv5]
    simp only [hostConfig_remake_id]
    have hne1 : str "*s3*amazonaws.com" ≠ fh := fun heq => hglob1 heq.symm
    have hne2 : str "*storage.googleapis.com" ≠ fh := fun heq => hglob2 heq.symm
    rw [alistLookup_insert_ne _ _ _ _ hne2, alistLookup_insert_ne _ _ _ _ hne1]
    simp only [hfind]
    split_ifs
    · exact alistLookup_delete_self fh _
    · exact alistLookup_delete_self fh _
    · exact alistLookup_delete_self fh _
    · exfalso
      rcases hdisj with hd | hd | hd | hd <;> simp_all
  · intro g conf hv5
    unfold migrateConfigV5ToV6
    rw [if_pos hv5]
    simp only [hostConfig_remake_id]
    exact alistLookup_insert_self _ _ _
  · intro g conf h cfg fh fcfg hv5 hlook hfind hne hng1 hng2
    unfold migrateConfigV5ToV6
    rw [if_pos hv5]
    simp only [hostConfig_remake_id]
    have hne1 : str "*s3*amazonaws.com" ≠ h := fun heq => hng1 heq.symm
    have hne2 : str "*storage.googleapis.com" ≠ h := fun heq => hng2 heq.symm
    rw [alistLookup_insert_ne _ _ _ _ hne2, alistLookup_insert_ne _ _ _ _ hne1]
    simp only [hfind]
    have hdel : ∀ (m : List (Str × hostConfig)),
        alistLookup h (alistDelete fh m) = alistLookup h m :=
      fun m => alistLookup_delete_ne h fh m (fun heq => hne heq.symm)
    split_ifs <;> simp [hdel, hlook]
  · intro g conf fh fcfg hv5 hfind hn hng1 hng2
    have ha : fcfg.AccessKeyID ≠ g.accessKeyID := fun hx => hn (Or.inl hx)
    have hs : fcfg.SecretAccessKey ≠ g.secretAccessKey :=
      fun hx => hn (Or.inr (Or.inl hx))
    have hae : fcfg.AccessKeyID ≠ [] := fun hx => hn (Or.inr (Or.inr (Or.inl hx)))
    have hse : fcfg.SecretAccessKey ≠ [] := fun hx => hn (Or.inr (Or.inr (Or.inr hx)))
    unfold migrateConfigV5ToV6
    rw [if_pos hv5]
    simp only [hostConfig_remake_id]
    have hne1 : str "*s3*amazonaws.com" ≠ fh := fun heq => hng1 heq.symm
    have hne2 : str "*storage.googleapis.com" ≠ fh := fun heq => hng2 heq.symm
    rw [alistLookup_insert_ne _ _ _ _ hne2, alistLookup_insert_ne _ _ _ _ hne1]
    simp only [hfind]
    have hc1 : ¬((decide (fcfg.AccessKeyID = g.accessKeyID) ||
        decide (fcfg.SecretAccessKey = g.secretAccessKey)) = true) := by
      rw [Bool.or_eq_true, decide_eq_true_eq, decide_eq_true_eq]
      rintro (hx | hx)
      · exact ha hx
      · exact hs hx
    have hc2 : ¬((fcfg.AccessKeyID.isEmpty ||
        fcfg.SecretAccessKey.isEmpty) = true) := by
      rw [Bool.or_eq_true]
      rintro (hx | hx)
      · exact hae (List.isEmpty_iff.mp hx)
      · exact hse (List.isEmpty_iff.mp hx)
    rw [if_neg hc2, if_neg hc1]

/-- Witness for the C8 amendment at concrete documents: a later `s3`-keyed
entry is carried through, the first `s3` entry with the default access key is
deleted, the first `s3` entry with non-default non-empty credentials
survives unchanged, and the `*storage.googleapis.com` glob entry holding the
default credentials is added. -/
theorem migrateV5ToV6_amended_witness :
    alistLookup (str "other.s3.example")
        (migrateConfigV5ToV6 gMigrate confKeepV5).Hosts =
      some { AccessKeyID := str "C", SecretAccessKey := str "D",
             API := str "S3v4" } ∧
    alistLookup (str "play.s3.example")
        (migrateConfigV5ToV6 gMigrate confDelV5).Hosts = none ∧
    alistLookup (str "play.s3.example")
        (migrateConfigV5ToV6 gMigrate confKeepV5).Hosts =
      alistLookup (str "play.s3.example") confKeepV5.Hosts ∧
    alistLookup (str "*storage.googleapis.com")
        (migrateConfigV5ToV6 gMigrate confKeepV5).Hosts =
      some { AccessKeyID := str "G", SecretAccessKey := str "S",
             API := str "S3v2" } :=
  ⟨migrateV5ToV6_amended.2.2.2.1 gMigrate confKeepV5 (str "other.s3.example")
      { AccessKeyID := str "C", SecretAccessKey := str "D", API := str "S3v4" }
      (str "play.s3.example")
      { AccessKeyID := str "A", SecretAccessKey := str "B", API := str "S3v4" }
      (by decide) (by decide) (by decide) (by decide) (by decide) (by decide),
   migrateV5ToV6_amended.2.1 gMigrate confDelV5 (str "play.s3.example")
      { AccessKeyID := str "G", SecretAccessKey := str "T", API := str "S3v4" }
      (by decide) (by decide) (by decide) (by decide) (by decide),
   migrateV5ToV6_amended.2.2.2.2 gMigrate confKeepV5 (str "play.s3.example")
      { AccessKeyID := str "A", SecretAccessKey := str "B", API := str "S3v4" }
      (by decide) (by decide) (by decide) (by decide) (by decide),
   migrateV5ToV6_amended.2.2.1 gMigrate confKeepV5 (by decide)⟩

/-! ## C9 (amended): the version-6 hosts fix-up pass -/

theorem strStartsWith_mono (s p q : Str) (h : strStartsWith s (p ++ q) = true) :
    strStartsWith s p = true := by
  induction p generalizing s with
  | nil => exact strStartsWith_nil_right s
  | cons c p' ih =>
    cases s with
    | nil =>
      rw [List.cons_append] at h
      rw [strStartsWith_nil_left _ (by simp)] at h
      cases h
    | cons a s' =>
      rw [List.cons_append] at h
      simp only [strStartsWith, Bool.and_eq_true, decide_eq_true_eq] at h ⊢
      exact ⟨h.1, ih s' h.2⟩

theorem alistInsert_mem {α : Type} (k : Str) (v : α) (l : List (Str × α))
    (p : Str × α) (hp : p ∈ alistInsert k v l) : p = (k, v) ∨ p ∈ l := by
  induction l with
  | nil => simpa [alistInsert] using hp
  | cons q rest ih =>
    obtain ⟨qk, qv⟩ := q
    by_cases hq : qk = k
    · simp only [alistInsert, if_pos hq] at hp
      rcases List.mem_cons.mp hp with h | h
      · exact Or.inl h
      · exact Or.inr (List.mem_cons_of_mem _ h)
    · simp only [alistInsert, if_neg hq] at hp
      rcases List.mem_cons.mp hp with h | h
      · exact Or.inr (h ▸ List.mem_cons_self _ _)
      · rcases ih h with h2 | h2
        · exact Or.inl h2
        · exact Or.inr (List.mem_cons_of_mem _ h2)

theorem alistDelete_insert_http (acc : List (Str × hostConfig)) (host key : Str)
    (cfg : hostConfig) (hkey : strStartsWith key (str "http") = true)
    (hhost : strStartsWith host (str "http") = false)
    (hacc : ∀ p ∈ acc, strStartsWith p.1 (str "http") = true) :
    alistDelete host (alistInsert key cfg acc) = alistInsert key cfg acc := by
  unfold alistDelete
  apply List.filter_eq_self.mpr
  intro p hp
  rcases alistInsert_mem key cfg acc p hp with heq | hmem
  · subst heq
    simp only [decide_eq_true_eq]
    intro heq2
    rw [heq2] at hkey
    rw [hkey] at hhost
    cases hhost
  · have hps := hacc p hmem
    simp only [decide_eq_true_eq]
    intro heq2
    rw [heq2] at hps
    rw [hps] at hhost
    cases hhost

theorem inv_alistInsert (acc : List (Str × hostConfig)) (k : Str) (v : hostConfig)
    (hk : strStartsWith k (str "http") = true)
    (hacc : ∀ p ∈ acc, strStartsWith p.1 (str "http") = true) :
    ∀ p ∈ alistInsert k v acc, strStartsWith p.1 (str "http") = true := by
  intro p hp
  rcases alistInsert_mem k v acc p hp with heq | hmem
  · rw [heq]
    exact hk
  · exact hacc p hmem

theorem fixHostsLoop_eq_spec (hosts : List (Str × hostConfig)) :
    ∀ acc, (∀ p ∈ acc, strStartsWith p.1 (str "http") = true) →
      fixHostsLoop acc hosts = fixHostsSpecLoop acc hosts := by
  induction hosts with
  | nil => intro acc _; rfl
  | cons q rest ih =>
    obtain ⟨host, cfg⟩ := q
    intro acc hacc
    by_cases hhttp : (strStartsWith host (str "https") ||
        strStartsWith host (str "http")) = true
    · have hh : strStartsWith host (str "http") = true := by
        rw [Bool.or_eq_true] at hhttp
        rcases hhttp with h | h
        · exact strStartsWith_mono host (str "http") (str "s")
            (by rw [show str "http" ++ str "s" = str "https" from rfl]; exact h)
        · exact h
      have hspec : fixHostKey host = some host := by
        unfold fixHostKey
        rw [if_pos hhttp]
      simp only [fixHostsLoop, fixHostsSpecLoop, hspec]
      rw [if_pos hhttp]
      exact ih _ (inv_alistInsert acc host cfg hh hacc)
    · by_cases hg1 : (decide (host = str "s3.amazonaws.com") ||
          decide (host = str "storage.googleapis.com")) = true
      · rw [Bool.or_eq_true, decide_eq_true_eq, decide_eq_true_eq] at hg1
        rcases hg1 with heq | heq
        · subst heq
          have hstep : fixHostsLoop acc ((str "s3.amazonaws.com", cfg) :: rest) =
              fixHostsLoop (alistDelete (str "s3.amazonaws.com")
                (alistInsert (str "https://" ++ str "s3.amazonaws.com") cfg acc))
                rest := rfl
          have hsstep : fixHostsSpecLoop acc ((str "s3.amazonaws.com", cfg) :: rest) =
              fixHostsSpecLoop
                (alistInsert (str "https://" ++ str "s3.amazonaws.com") cfg acc)
                rest := rfl
          rw [hstep, hsstep, alistDelete_insert_http acc (str "s3.amazonaws.com")
            (str "https://" ++ str "s3.amazonaws.com") cfg (by decide) (by decide) hacc]
          exact ih _ (inv_alistInsert acc _ cfg (by decide) hacc)
        · subst heq
          have hstep : fixHostsLoop acc ((str "storage.googleapis.com", cfg) :: rest) =
              fixHostsLoop (alistDelete (str "storage.googleapis.com")
                (alistInsert (str "https://" ++ str "storage.googleapis.com") cfg acc))
                rest := rfl
          have hsstep : fixHostsSpecLoop acc
                ((str "storage.googleapis.com", cfg) :: rest) =
              fixHostsSpecLoop
                (alistInsert (str "https://" ++ str "storage.googleapis.com") cfg acc)
                rest := rfl
          rw [hstep, hsstep, alistDelete_insert_http acc (str "storage.googleapis.com")
            (str "https://" ++ str "storage.googleapis.com") cfg (by decide) (by decide)
            hacc]
          exact ih _ (inv_alistInsert acc _ cfg (by decide) hacc)
      · by_cases hg2 : (decide (host = str "localhost:9000") ||
            decide (host = str "127.0.0.1:9000")) = true
        · rw [Bool.or_eq_true, decide_eq_true_eq, decide_eq_true_eq] at hg2
          rcases hg2 with heq | heq
          · subst heq
            have hstep : fixHostsLoop acc ((str "localhost:9000", cfg) :: rest) =
                fixHostsLoop (alistDelete (str "localhost:9000")
                  (alistInsert (str "http://" ++ str "localhost:9000") cfg acc))
                  rest := rfl
            have hsstep : fixHostsSpecLoop acc ((str "localhost:9000", cfg) :: rest) =
                fixHostsSpecLoop
                  (alistInsert (str "http://" ++ str "localhost:9000") cfg acc)
                  rest := rfl
            rw [hstep, hsstep, alistDelete_insert_http acc (str "localhost:9000")
              (str "http://" ++ str "localhost:9000") cfg (by decide) (by decide) hacc]
            exact ih _ (inv_alistInsert acc _ cfg (by decide) hacc)
          · subst heq
            have hstep : fixHostsLoop acc ((str "127.0.0.1:9000", cfg) :: rest) =
                fixHostsLoop (alistDelete (str "127.0.0.1:9000")
                  (alistInsert (str "http://" ++ str "127.0.0.1:9000") cfg acc))
                  rest := rfl
            have hsstep : fixHostsSpecLoop acc ((str "127.0.0.1:9000", cfg) :: rest) =
                fixHostsSpecLoop
                  (alistInsert (str "http://" ++ str "127.0.0.1:9000") cfg acc)
                  rest := rfl
            rw [hstep, hsstep, alistDelete_insert_http acc (str "127.0.0.1:9000")
              (str "http://" ++ str "127.0.0.1:9000") cfg (by decide) (by decide) hacc]
            exact ih _ (inv_alistInsert acc _ cfg (by decide) hacc)
        · by_cases hg3 : (decide (host = str "play.minio.io:9000") ||
              decide (host = str "dl.minio.io:9000")) = true
          · rw [Bool.or_eq_true, decide_eq_true_eq, decide_eq_true_eq] at hg3
            rcases hg3 with heq | heq
            · subst heq
              have hstep : fixHostsLoop acc ((str "play.minio.io:9000", cfg) :: rest) =
                  fixHostsLoop (alistDelete (str "play.minio.io:9000")
                    (alistInsert (str "https://" ++ str "play.minio.io:9000") cfg acc))
                    rest := rfl
              have hsstep : fixHostsSpecLoop acc
                    ((str "play.minio.io:9000", cfg) :: rest) =
                  fixHostsSpecLoop
                    (alistInsert (str "https://" ++ str "play.minio.io:9000") cfg acc)
                    rest := rfl
              rw [hstep, hsstep, alistDelete_insert_http acc (str "play.minio.io:9000")
                (str "https://" ++ str "play.minio.io:9000") cfg (by decide) (by decide)
                hacc]
              exact ih _ (inv_alistInsert acc _ cfg (by decide) hacc)
            · subst heq
              have hstep : fixHostsLoop acc ((str "dl.minio.io:9000", cfg) :: rest) =
                  fixHostsLoop (alistDelete (str "dl.minio.io:9000")
                    (alistInsert (str "https://" ++ str "dl.minio.io:9000") cfg acc))
                    rest := rfl
              have hsstep : fixHostsSpecLoop acc
                    ((str "dl.minio.io:9000", cfg) :: rest) =
                  fixHostsSpecLoop
                    (alistInsert (str "https://" ++ str "dl.minio.io:9000") cfg acc)
                    rest := rfl
              rw [hstep, hsstep, alistDelete_insert_http acc (str "dl.minio.io:9000")
                (str "https://" ++ str "dl.minio.io:9000") cfg (by decide) (by decide)
                hacc]
              exact ih _ (inv_alistInsert acc _ cfg (by decide) hacc)
          · have hspec : fixHostKey host = none := by
              unfold fixHostKey
              rw [if_neg hhttp, if_neg hg1, if_neg hg2, if_neg hg3]
            simp only [fixHostsLoop, fixHostsSpecLoop, hspec]
            rw [if_neg hhttp, if_neg hg1, if_neg hg2, if_neg hg3]
            exact ih _ hacc

/-- C9 (amended): on a version-6 document the hosts fix-up pass rebuilds the
host map entry by entry through the key upgrade `fixHostKey`: keys already
scheme-prefixed are kept, the six recognized bare keys are upgraded to their
scheme-qualified form with credentials unchanged, and every other host entry
is dropped (so the pass is lossy on unrecognized bare keys, as the
counterexample shows). -/
theorem fixConfigV6ForHosts_amended (conf : configV6) (hv : conf.Version = str "6") :
    (fixConfigV6ForHosts conf).Hosts = fixHostsSpecLoop [] conf.Hosts := by
  unfold fixConfigV6ForHosts
  rw [if_pos hv]
  exact fixHostsLoop_eq_spec conf.Hosts [] (by intro p hp; cases hp)

/-- Witness for the C9 amendment at a two-entry version-6 document. -/
theorem fixConfigV6ForHosts_amended_witness :
    (fixConfigV6ForHosts
      { Version := str "6", Aliases := [],
        Hosts := [(str "localhost:9000",
          { AccessKeyID := str "A", SecretAccessKey := str "S", API := str "S3v4" }),
          (str "example.org",
          { AccessKeyID := str "B", SecretAccessKey := str "T", API := str "S3v4" })] }).Hosts =
      fixHostsSpecLoop []
        [(str "localhost:9000",
          { AccessKeyID := str "A", SecretAccessKey := str "S", API := str "S3v4" }),
          (str "example.org",
          { AccessKeyID := str "B", SecretAccessKey := str "T", API := str "S3v4" })] :=
  fixConfigV6ForHosts_amended
    { Version := str "6", Aliases := [],
      Hosts := [(str "localhost:9000",
        { AccessKeyID := str "A", SecretAccessKey := str "S", API := str "S3v4" }),
        (str "example.org",
        { AccessKeyID := str "B", SecretAccessKey := str "T", API := str "S3v4" })] }
    (by decide)
